import Mathlib

/-! WA_Scraper: message archival and invite processing.

A shallow embedding of `src/wa3.js` (the live archiver with the group-invite
worker) and of the archival function of `src/wawebscrap.js`.

Every `await` of the source is a call into the document store or into the
messaging-platform client.  The outcome of such a call is not decided by the
program, so each function below takes a *world* record that fixes, for every
call the function can make, whether the call completes and with what value.
The functions return the collection after the run, the trace of effects they
issued, and either a value or the error that escaped them.
-/

namespace WAScraper

/-! ## JavaScript values -/

/-- A thrown JavaScript object, as far as the handlers look at it: `error.message`
(absent when the object has none) and `error.code`.  The platform client and the store
driver throw objects; a thrown `undefined` or `null` is not a value of this type. -/
structure JsError where
  message : Option String
  code : Option Nat
  deriving DecidableEq, Repr

/-- The `TypeError` raised when a property is read from `undefined`. -/
def typeError : JsError :=
  { message := some "Cannot read properties of undefined", code := none }

/-- Truthiness of a string-or-undefined value: `undefined`, `null` and `""` are falsy. -/
def truthy : Option String → Bool
  | none => false
  | some s => s ≠ ""

/-- The operator `a || b` on string-or-undefined values. -/
def jsOr (a b : Option String) : Option String :=
  if truthy a then a else b

/-- The lower-case mappings of the Unicode character database (version 14) for the
code points above ASCII that lower-case to one code point: an entry
`(first, last, stride, target)` maps `first`, `first + stride`, ..., `last` to `target`,
`target + stride`, ...  Among them is U+212A KELVIN SIGN, mapped to `k`. -/
def lowerTable : List (Nat × Nat × Nat × Nat) :=
  [(0xC0, 0xD6, 1, 0xE0), (0xD8, 0xDE, 1, 0xF8), (0x100, 0x12E, 2, 0x101),
   (0x132, 0x136, 2, 0x133), (0x139, 0x147, 2, 0x13A), (0x14A, 0x176, 2, 0x14B),
   (0x178, 0x178, 1, 0xFF), (0x179, 0x17D, 2, 0x17A), (0x181, 0x181, 1, 0x253),
   (0x182, 0x184, 2, 0x183), (0x186, 0x186, 1, 0x254), (0x187, 0x187, 1, 0x188),
   (0x189, 0x18A, 1, 0x256), (0x18B, 0x18B, 1, 0x18C), (0x18E, 0x18E, 1, 0x1DD),
   (0x18F, 0x18F, 1, 0x259), (0x190, 0x190, 1, 0x25B), (0x191, 0x191, 1, 0x192),
   (0x193, 0x193, 1, 0x260), (0x194, 0x194, 1, 0x263), (0x196, 0x196, 1, 0x269),
   (0x197, 0x197, 1, 0x268), (0x198, 0x198, 1, 0x199), (0x19C, 0x19C, 1, 0x26F),
   (0x19D, 0x19D, 1, 0x272), (0x19F, 0x19F, 1, 0x275), (0x1A0, 0x1A4, 2, 0x1A1),
   (0x1A6, 0x1A6, 1, 0x280), (0x1A7, 0x1A7, 1, 0x1A8), (0x1A9, 0x1A9, 1, 0x283),
   (0x1AC, 0x1AC, 1, 0x1AD), (0x1AE, 0x1AE, 1, 0x288), (0x1AF, 0x1AF, 1, 0x1B0),
   (0x1B1, 0x1B2, 1, 0x28A), (0x1B3, 0x1B5, 2, 0x1B4), (0x1B7, 0x1B7, 1, 0x292),
   (0x1B8, 0x1B8, 1, 0x1B9), (0x1BC, 0x1BC, 1, 0x1BD), (0x1C4, 0x1C4, 1, 0x1C6),
   (0x1C5, 0x1C5, 1, 0x1C6), (0x1C7, 0x1C7, 1, 0x1C9), (0x1C8, 0x1C8, 1, 0x1C9),
   (0x1CA, 0x1CA, 1, 0x1CC), (0x1CB, 0x1DB, 2, 0x1CC), (0x1DE, 0x1EE, 2, 0x1DF),
   (0x1F1, 0x1F1, 1, 0x1F3), (0x1F2, 0x1F4, 2, 0x1F3), (0x1F6, 0x1F6, 1, 0x195),
   (0x1F7, 0x1F7, 1, 0x1BF), (0x1F8, 0x21E, 2, 0x1F9), (0x220, 0x220, 1, 0x19E),
   (0x222, 0x232, 2, 0x223), (0x23A, 0x23A, 1, 0x2C65), (0x23B, 0x23B, 1, 0x23C),
   (0x23D, 0x23D, 1, 0x19A), (0x23E, 0x23E, 1, 0x2C66), (0x241, 0x241, 1, 0x242),
   (0x243, 0x243, 1, 0x180), (0x244, 0x244, 1, 0x289), (0x245, 0x245, 1, 0x28C),
   (0x246, 0x24E, 2, 0x247), (0x370, 0x372, 2, 0x371), (0x376, 0x376, 1, 0x377),
   (0x37F, 0x37F, 1, 0x3F3), (0x386, 0x386, 1, 0x3AC), (0x388, 0x38A, 1, 0x3AD),
   (0x38C, 0x38C, 1, 0x3CC), (0x38E, 0x38F, 1, 0x3CD), (0x391, 0x3A1, 1, 0x3B1),
   (0x3A3, 0x3AB, 1, 0x3C3), (0x3CF, 0x3CF, 1, 0x3D7), (0x3D8, 0x3EE, 2, 0x3D9),
   (0x3F4, 0x3F4, 1, 0x3B8), (0x3F7, 0x3F7, 1, 0x3F8), (0x3F9, 0x3F9, 1, 0x3F2),
   (0x3FA, 0x3FA, 1, 0x3FB), (0x3FD, 0x3FF, 1, 0x37B), (0x400, 0x40F, 1, 0x450),
   (0x410, 0x42F, 1, 0x430), (0x460, 0x480, 2, 0x461), (0x48A, 0x4BE, 2, 0x48B),
   (0x4C0, 0x4C0, 1, 0x4CF), (0x4C1, 0x4CD, 2, 0x4C2), (0x4D0, 0x52E, 2, 0x4D1),
   (0x531, 0x556, 1, 0x561), (0x10A0, 0x10C5, 1, 0x2D00), (0x10C7, 0x10C7, 1, 0x2D27),
   (0x10CD, 0x10CD, 1, 0x2D2D), (0x13A0, 0x13EF, 1, 0xAB70), (0x13F0, 0x13F5, 1, 0x13F8),
   (0x1C90, 0x1CBA, 1, 0x10D0), (0x1CBD, 0x1CBF, 1, 0x10FD), (0x1E00, 0x1E94, 2, 0x1E01),
   (0x1E9E, 0x1E9E, 1, 0xDF), (0x1EA0, 0x1EFE, 2, 0x1EA1), (0x1F08, 0x1F0F, 1, 0x1F00),
   (0x1F18, 0x1F1D, 1, 0x1F10), (0x1F28, 0x1F2F, 1, 0x1F20), (0x1F38, 0x1F3F, 1, 0x1F30),
   (0x1F48, 0x1F4D, 1, 0x1F40), (0x1F59, 0x1F5F, 2, 0x1F51), (0x1F68, 0x1F6F, 1, 0x1F60),
   (0x1F88, 0x1F8F, 1, 0x1F80), (0x1F98, 0x1F9F, 1, 0x1F90), (0x1FA8, 0x1FAF, 1, 0x1FA0),
   (0x1FB8, 0x1FB9, 1, 0x1FB0), (0x1FBA, 0x1FBB, 1, 0x1F70), (0x1FBC, 0x1FBC, 1, 0x1FB3),
   (0x1FC8, 0x1FCB, 1, 0x1F72), (0x1FCC, 0x1FCC, 1, 0x1FC3), (0x1FD8, 0x1FD9, 1, 0x1FD0),
   (0x1FDA, 0x1FDB, 1, 0x1F76), (0x1FE8, 0x1FE9, 1, 0x1FE0), (0x1FEA, 0x1FEB, 1, 0x1F7A),
   (0x1FEC, 0x1FEC, 1, 0x1FE5), (0x1FF8, 0x1FF9, 1, 0x1F78), (0x1FFA, 0x1FFB, 1, 0x1F7C),
   (0x1FFC, 0x1FFC, 1, 0x1FF3), (0x2126, 0x2126, 1, 0x3C9), (0x212A, 0x212A, 1, 0x6B),
   (0x212B, 0x212B, 1, 0xE5), (0x2132, 0x2132, 1, 0x214E), (0x2160, 0x216F, 1, 0x2170),
   (0x2183, 0x2183, 1, 0x2184), (0x24B6, 0x24CF, 1, 0x24D0), (0x2C00, 0x2C2F, 1, 0x2C30),
   (0x2C60, 0x2C60, 1, 0x2C61), (0x2C62, 0x2C62, 1, 0x26B), (0x2C63, 0x2C63, 1, 0x1D7D),
   (0x2C64, 0x2C64, 1, 0x27D), (0x2C67, 0x2C6B, 2, 0x2C68), (0x2C6D, 0x2C6D, 1, 0x251),
   (0x2C6E, 0x2C6E, 1, 0x271), (0x2C6F, 0x2C6F, 1, 0x250), (0x2C70, 0x2C70, 1, 0x252),
   (0x2C72, 0x2C72, 1, 0x2C73), (0x2C75, 0x2C75, 1, 0x2C76), (0x2C7E, 0x2C7F, 1, 0x23F),
   (0x2C80, 0x2CE2, 2, 0x2C81), (0x2CEB, 0x2CED, 2, 0x2CEC), (0x2CF2, 0x2CF2, 1, 0x2CF3),
   (0xA640, 0xA66C, 2, 0xA641), (0xA680, 0xA69A, 2, 0xA681), (0xA722, 0xA72E, 2, 0xA723),
   (0xA732, 0xA76E, 2, 0xA733), (0xA779, 0xA77B, 2, 0xA77A), (0xA77D, 0xA77D, 1, 0x1D79),
   (0xA77E, 0xA786, 2, 0xA77F), (0xA78B, 0xA78B, 1, 0xA78C), (0xA78D, 0xA78D, 1, 0x265),
   (0xA790, 0xA792, 2, 0xA791), (0xA796, 0xA7A8, 2, 0xA797), (0xA7AA, 0xA7AA, 1, 0x266),
   (0xA7AB, 0xA7AB, 1, 0x25C), (0xA7AC, 0xA7AC, 1, 0x261), (0xA7AD, 0xA7AD, 1, 0x26C),
   (0xA7AE, 0xA7AE, 1, 0x26A), (0xA7B0, 0xA7B0, 1, 0x29E), (0xA7B1, 0xA7B1, 1, 0x287),
   (0xA7B2, 0xA7B2, 1, 0x29D), (0xA7B3, 0xA7B3, 1, 0xAB53), (0xA7B4, 0xA7C2, 2, 0xA7B5),
   (0xA7C4, 0xA7C4, 1, 0xA794), (0xA7C5, 0xA7C5, 1, 0x282), (0xA7C6, 0xA7C6, 1, 0x1D8E),
   (0xA7C7, 0xA7C9, 2, 0xA7C8), (0xA7D0, 0xA7D0, 1, 0xA7D1), (0xA7D6, 0xA7D8, 2, 0xA7D7),
   (0xA7F5, 0xA7F5, 1, 0xA7F6), (0xFF21, 0xFF3A, 1, 0xFF41), (0x10400, 0x10427, 1, 0x10428),
   (0x104B0, 0x104D3, 1, 0x104D8), (0x10570, 0x10594, 2, 0x10597),
   (0x10571, 0x1057A, 1, 0x10598), (0x1057C, 0x1058A, 1, 0x105A3),
   (0x1058C, 0x10592, 1, 0x105B3), (0x10594, 0x10595, 1, 0x105BB),
   (0x10C80, 0x10CB2, 1, 0x10CC0), (0x118A0, 0x118BF, 1, 0x118C0),
   (0x16E40, 0x16E5F, 1, 0x16E60), (0x1E900, 0x1E921, 1, 0x1E922)]

/-- The lower-case form of one code point: the ASCII letters, then U+0130, the one code
point that lower-cases to two (`i` and U+0307), then the table. -/
def lowerChar (c : Char) : List Char :=
  if c.toNat < 0x80 then [Char.toLower c]
  else if c.toNat = 0x130 then ['i', Char.ofNat 0x307]
  else
    match lowerTable.find? (fun r =>
        decide (r.1 ≤ c.toNat) && decide (c.toNat ≤ r.2.1) &&
          decide ((c.toNat - r.1) % r.2.2.1 = 0)) with
    | some r => [Char.ofNat (r.2.2.2 + (c.toNat - r.1))]
    | none => [c]

/-- `String.prototype.toLowerCase`: every code point is replaced by its lower-case form.
A capital sigma becomes `σ` wherever it stands; JavaScript writes `ς` for one that
ends a word, another letter outside ASCII. -/
def toLowerCase (s : String) : String :=
  ⟨s.data.flatMap lowerChar⟩

/-- Substring search on character lists: does `p` occur in the first argument? -/
def includesChars : List Char → List Char → Bool
  | [], p => p.isEmpty
  | c :: s, p => p.isPrefixOf (c :: s) || includesChars s p

/-- `String.prototype.includes`. -/
def includes (s p : String) : Bool :=
  includesChars s.data p.data

/-- Removes the first occurrence of `p`: `s.replace(p, "")` for a string pattern `p`. -/
def replaceFirstChars (p : List Char) : List Char → List Char
  | [] => []
  | c :: s => if p.isPrefixOf (c :: s) then (c :: s).drop p.length else c :: replaceFirstChars p s

/-- White space and line terminators, the characters `String.prototype.trim` strips. -/
def isJsWhitespace (c : Char) : Bool :=
  decide (c.toNat ∈ [0x09, 0x0A, 0x0B, 0x0C, 0x0D, 0x20, 0xA0, 0x1680, 0x2028, 0x2029,
    0x202F, 0x205F, 0x3000, 0xFEFF]) || (decide (0x2000 ≤ c.toNat) && decide (c.toNat ≤ 0x200A))

/-- `String.prototype.trim` on character lists. -/
def trimChars (s : List Char) : List Char :=
  ((s.dropWhile isJsWhitespace).reverse.dropWhile isJsWhitespace).reverse

/-! ## Effects -/

/-- The five values the `status` field of an invite record takes. -/
inductive Status where
  | pending
  | joined
  | failed
  | invalid_link
  | group_full
  deriving DecidableEq, Repr

/-- The fields written by `{ $set: { status, lastAttempt, errorMessage } }`. -/
structure InviteSet where
  status : Status
  lastAttempt : Nat
  errorMessage : Option String
  deriving DecidableEq, Repr

/-- The archived form of a message: the object `messageData` of `processAndSaveMessage`. -/
structure MessageData where
  msgId : String
  chatId : String
  chatName : Option String
  senderId : Option String
  senderName : Option String
  senderNumber : Option String
  isFromMe : Bool
  timestamp : Nat
  processedAt : Nat
  body : Option String
  type : String
  isGroupMsg : Bool
  hasMedia : Bool
  quotedMsgId : Option String
  raw : Option String
  deriving DecidableEq, Repr

/-- One observable action of a run: a call on the platform client, a call on a
store collection, or a line on the console. -/
inductive Effect where
  | getChat
  | getContact
  | getChatById (chatId : String)
  | getContactById (senderId : Option String)
  | upsertMessage (doc : MessageData)
  | findOnePending
  | acceptInvite (inviteCode : String)
  | updateInvite (id : Nat) (set : InviteSet)
  | consoleLog
  | consoleError
  deriving DecidableEq, Repr

/-- Calls on `messagesCollection` and `groupInvitesCollection`. -/
def Effect.isStoreCall : Effect → Bool
  | .upsertMessage _ => true
  | .findOnePending => true
  | .updateInvite _ _ => true
  | _ => false

/-- Calls on the platform client (`msg.getChat`, `client.acceptInvite`, ...). -/
def Effect.isPlatformCall : Effect → Bool
  | .getChat => true
  | .getContact => true
  | .getChatById _ => true
  | .getContactById _ => true
  | .acceptInvite _ => true
  | _ => false

/-- What a run leaves behind: the collection it worked on, the effects it issued in
order, and its completion (a value, or the error that escaped it). -/
structure Outcome (σ α : Type) where
  store : σ
  trace : List Effect
  result : Except JsError α

/-! ## The message collection -/

/-- A raw platform message, as far as `processAndSaveMessage` reads it.  `id` is
`msg.id._serialized`, and `none` when the event has no `msg.id`; `sender` is `msg.from`. -/
structure RawMsg where
  id : Option String
  sender : Option String
  fromMe : Bool
  timestamp : Nat
  body : Option String
  type : String
  hasMedia : Bool
  hasQuotedMsg : Bool
  quotedMsgId : Option String
  rawData : Option String
  deriving DecidableEq, Repr

/-- The chat returned by `msg.getChat()`; `id` is `chat.id._serialized`. -/
structure Chat where
  id : Option String
  name : Option String
  isGroup : Bool
  deriving DecidableEq, Repr

/-- The contact returned by `msg.getContact()`. -/
structure Contact where
  pushname : Option String
  name : Option String
  number : Option String
  deriving DecidableEq, Repr

/-- Does the record carry the key `(chatId, msgId)`? -/
def MessageData.hasKey (chatId msgId : String) (d : MessageData) : Bool :=
  decide (d.chatId = chatId) && decide (d.msgId = msgId)

/-- The result object of `updateOne`. -/
structure UpdateResult where
  matchedCount : Nat
  upsertedCount : Nat
  deriving DecidableEq, Repr

/-- The write `updateOne({chatId, msgId}, {$setOnInsert: doc}, {upsert: true})`: when a
record matches the filter nothing is set; when none does, `doc` is inserted. -/
def updateOneUpsert (coll : List MessageData) (chatId msgId : String) (doc : MessageData) :
    List MessageData × UpdateResult :=
  if coll.any (MessageData.hasKey chatId msgId) then
    (coll, { matchedCount := 1, upsertedCount := 0 })
  else
    (coll ++ [doc], { matchedCount := 0, upsertedCount := 1 })

/-- The unique index `{ chatId: 1, msgId: 1 }` holds of a collection. -/
def UniqueKeys (coll : List MessageData) : Prop :=
  coll.Pairwise (fun a b => ¬ (a.chatId = b.chatId ∧ a.msgId = b.msgId))

/-- The outcomes of the calls one run of `processAndSaveMessage` makes. -/
structure MsgWorld where
  getChat : Except JsError Chat
  getContact : Except JsError Contact
  now : Nat
  write : Option JsError

/-- The object literal `messageData` of `wa3.js`, once `msg.id` and `chat.id` are read. -/
def messageData (msg : RawMsg) (chat : Chat) (contact : Contact) (msgId chatId : String)
    (now : Nat) : MessageData :=
  { msgId := msgId
    chatId := chatId
    chatName := chat.name
    senderId := msg.sender
    senderName := jsOr (jsOr contact.pushname contact.name) msg.sender
    senderNumber := contact.number
    isFromMe := msg.fromMe
    timestamp := msg.timestamp
    processedAt := now
    body := msg.body
    type := msg.type
    isGroupMsg := chat.isGroup
    hasMedia := msg.hasMedia
    quotedMsgId := if msg.hasQuotedMsg then msg.quotedMsgId else none
    raw := none }

/-- The `try` block of `processAndSaveMessage` (`wa3.js`). -/
def processAndSaveMessageTry (w : MsgWorld) (coll : List MessageData) (msg : RawMsg) :
    Outcome (List MessageData) Unit :=
  match w.getChat with
  | .error e => ⟨coll, [.getChat], .error e⟩
  | .ok chat =>
    match w.getContact with
    | .error e => ⟨coll, [.getChat, .getContact], .error e⟩
    | .ok contact =>
      match msg.id with
      | none => ⟨coll, [.getChat, .getContact], .error typeError⟩
      | some msgId =>
        match chat.id with
        | none => ⟨coll, [.getChat, .getContact], .error typeError⟩
        | some chatId =>
          let doc := messageData msg chat contact msgId chatId w.now
          match w.write with
          | some e => ⟨coll, [.getChat, .getContact, .upsertMessage doc], .error e⟩
          | none =>
            let r := updateOneUpsert coll doc.chatId doc.msgId doc
            if r.2.upsertedCount > 0 then
              match doc.body with
              | none => ⟨r.1, [.getChat, .getContact, .upsertMessage doc], .error typeError⟩
              | some _ =>
                ⟨r.1, [.getChat, .getContact, .upsertMessage doc, .consoleLog], .ok ()⟩
            else
              ⟨r.1, [.getChat, .getContact, .upsertMessage doc], .ok ()⟩

/-- The function `processAndSaveMessage` of `wa3.js`: the `try` block, then the `catch`
clause, which logs every error but a duplicate key, naming `msg.id._serialized`. -/
def processAndSaveMessage (w : MsgWorld) (coll : List MessageData) (msg : RawMsg) :
    Outcome (List MessageData) Unit :=
  let t := processAndSaveMessageTry w coll msg
  match t.result with
  | .ok u => ⟨t.store, t.trace, .ok u⟩
  | .error error =>
    if error.code ≠ some 11000 then
      match msg.id with
      | none => ⟨t.store, t.trace, .error typeError⟩
      | some _ => ⟨t.store, t.trace ++ [.consoleError], .ok ()⟩
    else
      ⟨t.store, t.trace, .ok ()⟩

/-! ## The invite collection and the join attempt (`wa3.js`) -/

/-- A document of `groupInvitesCollection`. -/
structure InviteDoc where
  _id : Nat
  inviteLink : String
  status : Status
  lastAttempt : Option Nat
  errorMessage : Option String
  deriving DecidableEq, Repr

/-- The query `findOne({ status: "pending" })`: the first pending document in the
collection's natural order. -/
def findOnePending (coll : List InviteDoc) : Option InviteDoc :=
  coll.find? (fun d => decide (d.status = Status.pending))

/-- The write `updateOne({ _id: id }, { $set: u })`: the first document with that `_id`
gets the three fields of `u`. -/
def updateOneSet (id : Nat) (u : InviteSet) : List InviteDoc → List InviteDoc
  | [] => []
  | d :: ds =>
    if d._id = id then
      { d with status := u.status, lastAttempt := some u.lastAttempt,
               errorMessage := u.errorMessage } :: ds
    else d :: updateOneSet id u ds

/-- The expression `inviteLink.replace("https://chat.whatsapp.com/", "").trim()`. -/
def inviteCodeOf (inviteLink : String) : String :=
  ⟨trimChars (replaceFirstChars "https://chat.whatsapp.com/".data inviteLink.data)⟩

/-- The status the `catch` clause of `attemptToJoinGroup` derives from `error.message`:
`"failed"`, overwritten by the first branch of the `if`/`else if` chain that matches the
lower-cased message. -/
def classifyError (message : String) : Status :=
  let errMsg := toLowerCase message
  if includes errMsg "invite_link_expired" || includes errMsg "invalid"
      || includes errMsg "not a valid invite code" || includes errMsg "no longer valid" then
    Status.invalid_link
  else if includes errMsg "already in group" || includes errMsg "is already a participant" then
    Status.joined
  else if includes errMsg "group is full" then
    Status.group_full
  else
    Status.failed

/-- The outcomes of the calls one run of `attemptToJoinGroup` can make: the platform
join, the write of the `try` block with the clock read before it, and the write of the
`catch` clause with the clock read before it. -/
structure JoinWorld where
  acceptInvite : Except JsError String
  now1 : Nat
  write1 : Option JsError
  now2 : Nat
  write2 : Option JsError

/-- The `try` block of `attemptToJoinGroup`, with the two lines before it. -/
def attemptToJoinGroupTry (w : JoinWorld) (coll : List InviteDoc) (doc : InviteDoc) :
    Outcome (List InviteDoc) Bool :=
  let inviteCode := inviteCodeOf doc.inviteLink
  match w.acceptInvite with
  | .error e => ⟨coll, [.consoleLog, .acceptInvite inviteCode], .error e⟩
  | .ok _ =>
    let set : InviteSet := { status := Status.joined, lastAttempt := w.now1, errorMessage := none }
    match w.write1 with
    | some e =>
      ⟨coll, [.consoleLog, .acceptInvite inviteCode, .consoleLog, .updateInvite doc._id set],
        .error e⟩
    | none =>
      ⟨updateOneSet doc._id set coll,
        [.consoleLog, .acceptInvite inviteCode, .consoleLog, .updateInvite doc._id set],
        .ok true⟩

/-- The function `attemptToJoinGroup`: whatever the `try` block throws, the platform's
error or the store's, reaches the `catch` clause, which classifies `error.message` and
writes the status with that message. -/
def attemptToJoinGroup (w : JoinWorld) (coll : List InviteDoc) (doc : InviteDoc) :
    Outcome (List InviteDoc) Bool :=
  let t := attemptToJoinGroupTry w coll doc
  match t.result with
  | .ok b => ⟨t.store, t.trace, .ok b⟩
  | .error error =>
    match error.message with
    | none => ⟨t.store, t.trace ++ [.consoleError], .error typeError⟩
    | some message =>
      let set : InviteSet :=
        { status := classifyError message, lastAttempt := w.now2, errorMessage := some message }
      match w.write2 with
      | some e => ⟨t.store, t.trace ++ [.consoleError, .updateInvite doc._id set], .error e⟩
      | none =>
        ⟨updateOneSet doc._id set t.store,
          t.trace ++ [.consoleError, .updateInvite doc._id set], .ok false⟩

/-- The rule table of the specification, highest priority first, its rule names read as
the texts to look for: expired, invalid, not-a-valid-code, no-longer-valid; then
already-in-group, already-a-participant; then group-is-full. -/
def ruleTable : List (List String × Status) :=
  [ (["expired", "invalid", "not a valid code", "no longer valid"], Status.invalid_link),
    (["already in group", "already a participant"], Status.joined),
    (["group is full"], Status.group_full) ]

/-- The texts the `if`/`else if` chain of `attemptToJoinGroup` searches for, branch by
branch, with the status each branch assigns. -/
def markerTable : List (List String × Status) :=
  [ (["invite_link_expired", "invalid", "not a valid invite code", "no longer valid"],
      Status.invalid_link),
    (["already in group", "is already a participant"], Status.joined),
    (["group is full"], Status.group_full) ]

/-- Classification by a priority-ordered rule table, as the specification words it: the
first rule with a text occurring in the lower-cased message decides; a message matching
no rule is `failed`. -/
def classifyByTable (table : List (List String × Status)) (message : String) : Status :=
  match table.find? (fun rule => rule.1.any (includes (toLowerCase message))) with
  | some rule => rule.2
  | none => Status.failed

/-! ## The invite worker (`wa3.js`) -/

/-- The module-level state `processSingleGroupInvite` reads and writes: the latch, whether
`client.info` and `client.pupPage` are set, and the invite collection. -/
structure Processor where
  isProcessingSingleInvite : Bool
  clientInfo : Bool
  pupPage : Bool
  invites : List InviteDoc
  deriving DecidableEq, Repr

/-- The outcomes of the calls one run of `processSingleGroupInvite` can make. -/
structure InviteWorld where
  findOne : Option JsError
  join : JoinWorld

/-- The `try` block of `processSingleGroupInvite`, entered with the latch set. -/
def processSingleGroupInviteTry (w : InviteWorld) (s : Processor) : Outcome Processor Unit :=
  match w.findOne with
  | some e => ⟨s, [.findOnePending], .error e⟩
  | none =>
    match findOnePending s.invites with
    | none => ⟨{ s with isProcessingSingleInvite := false }, [.findOnePending], .ok ()⟩
    | some inviteDoc =>
      let a := attemptToJoinGroup w.join s.invites inviteDoc
      match a.result with
      | .ok _ =>
        ⟨{ s with invites := a.store }, [.findOnePending, .consoleLog] ++ a.trace, .ok ()⟩
      | .error e =>
        ⟨{ s with invites := a.store }, [.findOnePending, .consoleLog] ++ a.trace, .error e⟩

/-- The function `processSingleGroupInvite`: the two early returns, then the latch is set
and the `try` block runs; its `catch` clause logs, its `finally` clause clears the latch. -/
def processSingleGroupInvite (w : InviteWorld) (s : Processor) : Outcome Processor Unit :=
  if s.isProcessingSingleInvite then
    ⟨s, [], .ok ()⟩
  else if !s.clientInfo || !s.pupPage then
    ⟨s, [.consoleLog], .ok ()⟩
  else
    let t := processSingleGroupInviteTry w { s with isProcessingSingleInvite := true }
    let c : Outcome Processor Unit :=
      match t.result with
      | .ok u => ⟨t.store, t.trace, .ok u⟩
      | .error _ => ⟨t.store, t.trace ++ [.consoleError], .ok ()⟩
    ⟨{ c.store with isProcessingSingleInvite := false }, c.trace, c.result⟩

/-! ## Interleaved runs of the invite worker

`processSingleGroupInvite` is an `async` function: between two of its `await`s the timer
may call it again, the session may change, and other writers may change the collection.
The machine below runs the same code one synchronous segment at a time. -/

/-- The `await` at which a run of `processSingleGroupInvite` is suspended. -/
inductive Pc where
  | findOne
  | acceptInvite (doc : InviteDoc)
  | updateJoined (doc : InviteDoc) (set : InviteSet)
  | updateFailed (doc : InviteDoc) (set : InviteSet)
  deriving DecidableEq, Repr

/-- What the event loop dispatches: a call of `processSingleGroupInvite` by a timer, the
settlement of the call run `i` awaits (with the clock at that moment), or anything from
outside the worker that changes the session or the collection. -/
inductive Event where
  | tick
  | settle (i : Nat) (reply : Except JsError String) (now : Nat)
  | outside (clientInfo pupPage : Bool) (invites : List InviteDoc)

/-- The module state, the suspended runs of `processSingleGroupInvite`, and the effects
issued so far. -/
structure Sys where
  proc : Processor
  runs : List Pc
  trace : List Effect

/-- Run `i` leaves `processSingleGroupInvite` through `finally`, which clears the latch. -/
def Sys.finish (s : Sys) (i : Nat) (tr : List Effect) : Sys :=
  { proc := { s.proc with isProcessingSingleInvite := false }
    runs := s.runs.eraseIdx i
    trace := s.trace ++ tr }

/-- Run `i` issues the effects `tr` and suspends at `pc`. -/
def Sys.suspend (s : Sys) (i : Nat) (pc : Pc) (tr : List Effect) : Sys :=
  { s with runs := s.runs.set i pc, trace := s.trace ++ tr }

/-- The document write awaited by run `i` took effect. -/
def Sys.written (s : Sys) (doc : InviteDoc) (set : InviteSet) : Sys :=
  { s with proc := { s.proc with invites := updateOneSet doc._id set s.proc.invites } }

/-- Run `i` enters the `catch` clause of `attemptToJoinGroup` with `error`. -/
def Sys.catchJoin (s : Sys) (i : Nat) (doc : InviteDoc) (error : JsError) (now : Nat) : Sys :=
  match error.message with
  | none => s.finish i [.consoleError, .consoleError]
  | some message =>
    let set : InviteSet :=
      { status := classifyError message, lastAttempt := now, errorMessage := some message }
    s.suspend i (.updateFailed doc set) [.consoleError, .updateInvite doc._id set]

/-- One synchronous segment of the worker. -/
def step (s : Sys) : Event → Sys
  | .tick =>
    if s.proc.isProcessingSingleInvite then s
    else if !s.proc.clientInfo || !s.proc.pupPage then
      { s with trace := s.trace ++ [.consoleLog] }
    else
      { proc := { s.proc with isProcessingSingleInvite := true }
        runs := s.runs ++ [.findOne]
        trace := s.trace ++ [.findOnePending] }
  | .outside clientInfo pupPage invites =>
    { s with proc := { s.proc with clientInfo := clientInfo, pupPage := pupPage,
                                   invites := invites } }
  | .settle i reply now =>
    match s.runs.get? i with
    | none => s
    | some .findOne =>
      match reply with
      | .error _ => s.finish i [.consoleError]
      | .ok _ =>
        match findOnePending s.proc.invites with
        | none => s.finish i []
        | some doc =>
          s.suspend i (.acceptInvite doc)
            [.consoleLog, .consoleLog, .acceptInvite (inviteCodeOf doc.inviteLink)]
    | some (.acceptInvite doc) =>
      match reply with
      | .ok _ =>
        let set : InviteSet :=
          { status := Status.joined, lastAttempt := now, errorMessage := none }
        s.suspend i (.updateJoined doc set) [.consoleLog, .updateInvite doc._id set]
      | .error e => s.catchJoin i doc e now
    | some (.updateJoined doc set) =>
      match reply with
      | .ok _ => (s.written doc set).finish i []
      | .error e => s.catchJoin i doc e now
    | some (.updateFailed doc set) =>
      match reply with
      | .ok _ => (s.written doc set).finish i []
      | .error _ => s.finish i [.consoleError]

/-- The state after a sequence of events. -/
def runEvents (s : Sys) (evs : List Event) : Sys :=
  evs.foldl step s

/-- The settlement the world `w` gives to a run suspended at `pc`. -/
def settleBy (w : InviteWorld) : Pc → Event
  | .findOne =>
    match w.findOne with
    | some e => .settle 0 (.error e) 0
    | none => .settle 0 (.ok "") 0
  | .acceptInvite _ =>
    match w.join.acceptInvite with
    | .ok g => .settle 0 (.ok g) w.join.now1
    | .error e => .settle 0 (.error e) w.join.now2
  | .updateJoined _ _ =>
    match w.join.write1 with
    | some e => .settle 0 (.error e) w.join.now2
    | none => .settle 0 (.ok "") 0
  | .updateFailed _ _ =>
    match w.join.write2 with
    | some e => .settle 0 (.error e) 0
    | none => .settle 0 (.ok "") 0

/-- Drives the oldest suspended run with the settlements of `w`, at most `n` times. -/
def drive (w : InviteWorld) : Nat → Sys → Sys
  | 0, s => s
  | n + 1, s =>
    match s.runs with
    | [] => s
    | pc :: _ => drive w n (step s (settleBy w pc))

/-- The suspended runs are counted by the latch: one while it is held, none otherwise. -/
def LatchCounts (s : Sys) : Prop :=
  s.runs.length = if s.proc.isProcessingSingleInvite then 1 else 0

/-! ## The archival function of `wawebscrap.js` -/

namespace Scrap

/-- The outcomes of the calls one run of `processAndSaveMessage` (`wawebscrap.js`) can
make: the two lookups on the message, the two repeated lookups on the client, the clock
and the write. -/
structure ScrapWorld where
  getChat : Except JsError Chat
  getContact : Except JsError Contact
  getChatById : Except JsError Chat
  getContactById : Except JsError (Option Contact)
  now : Nat
  write : Option JsError

/-- The object literal `messageData` of `wawebscrap.js`, once `msg.id` and `chat.id` are
read and `chatName` and `senderNumber` are worked out. -/
def messageData (msg : RawMsg) (chat : Chat) (contact : Contact) (msgId chatId : String)
    (chatName senderNumber : Option String) (now : Nat) : MessageData :=
  { msgId := msgId
    chatId := chatId
    chatName := chatName
    senderId := msg.sender
    senderName := jsOr (jsOr contact.pushname contact.name) msg.sender
    senderNumber := senderNumber
    isFromMe := msg.fromMe
    timestamp := msg.timestamp
    processedAt := now
    body := msg.body
    type := msg.type
    isGroupMsg := chat.isGroup
    hasMedia := msg.hasMedia
    quotedMsgId := if msg.hasQuotedMsg then msg.quotedMsgId else none
    raw := msg.rawData }

/-- The `try` block of `processAndSaveMessage` (`wawebscrap.js`), from the point where
`chat` and `contact` are known; `tr` is the trace so far. -/
def processAndSaveMessageData (w : ScrapWorld) (coll : List MessageData) (msg : RawMsg)
    (chat : Chat) (contact : Contact) (tr : List Effect) : Outcome (List MessageData) Bool :=
  match msg.id with
  | none => ⟨coll, tr, .error typeError⟩
  | some msgId =>
    match chat.id with
    | none => ⟨coll, tr, .error typeError⟩
    | some chatId =>
      let chatName : Except JsError (Option String × List Effect) :=
        if truthy chat.name then .ok (chat.name, tr)
        else match w.getChatById with
          | .error e => .error e
          | .ok c => .ok (c.name, tr ++ [.getChatById chatId])
      match chatName with
      | .error e => ⟨coll, tr ++ [.getChatById chatId], .error e⟩
      | .ok (chatName, tr1) =>
        let senderNumber : Except JsError (Option String × List Effect) :=
          if truthy contact.number then .ok (contact.number, tr1)
          else match w.getContactById with
            | .error e => .error e
            | .ok c => .ok (c.bind Contact.number, tr1 ++ [.getContactById msg.sender])
        match senderNumber with
        | .error e => ⟨coll, tr1 ++ [.getContactById msg.sender], .error e⟩
        | .ok (senderNumber, tr2) =>
          let doc := messageData msg chat contact msgId chatId chatName senderNumber w.now
          match w.write with
          | some e => ⟨coll, tr2 ++ [.upsertMessage doc], .error e⟩
          | none =>
            let r := updateOneUpsert coll doc.chatId doc.msgId doc
            match doc.body with
            | none => ⟨r.1, tr2 ++ [.upsertMessage doc], .error typeError⟩
            | some _ => ⟨r.1, tr2 ++ [.upsertMessage doc, .consoleLog], .ok true⟩

/-- The `try` block of `processAndSaveMessage` (`wawebscrap.js`): `chat` and `contact`
are fetched when the caller passed none. -/
def processAndSaveMessageTry (w : ScrapWorld) (coll : List MessageData) (msg : RawMsg)
    (chat : Option Chat) (contact : Option Contact) : Outcome (List MessageData) Bool :=
  let chat1 : Except JsError (Chat × List Effect) :=
    match chat with
    | some c => .ok (c, [])
    | none => match w.getChat with
      | .error e => .error e
      | .ok c => .ok (c, [.getChat])
  match chat1 with
  | .error e => ⟨coll, [.getChat], .error e⟩
  | .ok (chat, tr) =>
    let contact1 : Except JsError (Contact × List Effect) :=
      match contact with
      | some c => .ok (c, tr)
      | none => match w.getContact with
        | .error e => .error e
        | .ok c => .ok (c, tr ++ [.getContact])
    match contact1 with
    | .error e => ⟨coll, tr ++ [.getContact], .error e⟩
    | .ok (contact, tr1) => processAndSaveMessageData w coll msg chat contact tr1

/-- The function `processAndSaveMessage` of `wawebscrap.js`: both branches of its `catch`
clause print `msg.id._serialized` before `return false`. -/
def processAndSaveMessage (w : ScrapWorld) (coll : List MessageData) (msg : RawMsg)
    (chat : Option Chat) (contact : Option Contact) : Outcome (List MessageData) Bool :=
  let t := processAndSaveMessageTry w coll msg chat contact
  match t.result with
  | .ok b => ⟨t.store, t.trace, .ok b⟩
  | .error error =>
    if error.code = some 11000 then
      match msg.id with
      | none => ⟨t.store, t.trace, .error typeError⟩
      | some _ => ⟨t.store, t.trace ++ [.consoleLog], .ok false⟩
    else
      match msg.id with
      | none => ⟨t.store, t.trace, .error typeError⟩
      | some _ => ⟨t.store, t.trace ++ [.consoleError], .ok false⟩

end Scrap


/-- The sender name in the specification's words: the contact's display name when
present, otherwise the contact-record name when present, otherwise the raw sender
identifier.  A name is present when it is defined and not the empty string. -/
def fallbackName (contact : Contact) (msg : RawMsg) : Option String :=
  if truthy contact.pushname then contact.pushname
  else if truthy contact.name then contact.name
  else msg.sender

/-! ## Sample data -/

/-- A text message of chat `c1`. -/
def sampleMsg : RawMsg :=
  { id := some "m1", sender := some "628@c.us", fromMe := false, timestamp := 1700000000,
    body := some "halo", type := "chat", hasMedia := false, hasQuotedMsg := false,
    quotedMsgId := none, rawData := none }

/-- The chat of `sampleMsg`. -/
def sampleChat : Chat :=
  { id := some "c1", name := some "Keluarga", isGroup := true }

/-- The sender of `sampleMsg`. -/
def sampleContact : Contact :=
  { pushname := some "Budi", name := none, number := some "628" }

/-- A world in which both lookups answer and the write completes, at clock value `now`. -/
def worldAt (now : Nat) : MsgWorld :=
  { getChat := .ok sampleChat, getContact := .ok sampleContact, now := now, write := none }

/-- A record archived earlier under the key of `sampleMsg`, at clock value `1`. -/
def storedEarlier : MessageData :=
  messageData sampleMsg sampleChat sampleContact "m1" "c1" 1

/-- A pending invite. -/
def sampleInvite : InviteDoc :=
  { _id := 1, inviteLink := "https://chat.whatsapp.com/AAA", status := Status.pending,
    lastAttempt := none, errorMessage := none }

/-- A world in which the platform join raises an error with the text `message` and the
store's writes complete. -/
def rejectWith (message : String) : JoinWorld :=
  { acceptInvite := .error { message := some message, code := none }
    now1 := 10, write1 := none, now2 := 11, write2 := none }

/-- A world in which the platform join answers with a group id and the writes complete. -/
def joinAccepted : JoinWorld :=
  { acceptInvite := .ok "120363@g.us", now1 := 10, write1 := none, now2 := 11, write2 := none }

/-- A world for one run of the worker: the lookup answers and the join is accepted. -/
def calmWorld : InviteWorld :=
  { findOne := none, join := joinAccepted }

/-- The module state with the session ready and `sampleInvite` pending; `latch` is the
value of `isProcessingSingleInvite`. -/
def readyProcessor (latch : Bool) : Processor :=
  { isProcessingSingleInvite := latch, clientInfo := true, pupPage := true,
    invites := [sampleInvite] }

/-- The module state before `client.info` is set. -/
def notReadyProcessor : Processor :=
  { isProcessingSingleInvite := false, clientInfo := false, pupPage := true,
    invites := [sampleInvite] }

/-- The error of a store that cannot be reached. -/
def storeDown : JsError :=
  { message := some "connect ECONNREFUSED", code := none }

/-- A world for one run of the worker in which the join is accepted and both writes of
the outcome fail. -/
def stormyWorld : InviteWorld :=
  { findOne := none
    join := { acceptInvite := .ok "120363@g.us", now1 := 10, write1 := some storeDown,
              now2 := 11, write2 := some storeDown } }

/-- An event without `msg.id`. -/
def malformedMsg : RawMsg :=
  { sampleMsg with id := none }

/-- A world for `processAndSaveMessage` of `wawebscrap.js` in which every call answers. -/
def scrapWorld : Scrap.ScrapWorld :=
  { getChat := .ok sampleChat, getContact := .ok sampleContact, getChatById := .ok sampleChat,
    getContactById := .ok (some sampleContact), now := 7, write := none }

/-- A contact with neither a display name nor a contact-record name. -/
def namelessContact : Contact :=
  { pushname := none, name := none, number := some "628" }

/-- A world for `processAndSaveMessage` (`wa3.js`) whose contact lookup answers with
`namelessContact`. -/
def namelessWorld : MsgWorld :=
  { getChat := .ok sampleChat, getContact := .ok namelessContact, now := 7, write := none }

/-! ## Archival -/

theorem hasKey_iff (chatId msgId : String) (d : MessageData) :
    MessageData.hasKey chatId msgId d = true ↔ d.chatId = chatId ∧ d.msgId = msgId := by
  simp [MessageData.hasKey]

theorem updateOneUpsert_present (coll : List MessageData) (chatId msgId : String)
    (doc : MessageData) (h : coll.any (MessageData.hasKey chatId msgId) = true) :
    updateOneUpsert coll chatId msgId doc = (coll, { matchedCount := 1, upsertedCount := 0 }) := by
  simp [updateOneUpsert, h]

theorem updateOneUpsert_absent (coll : List MessageData) (chatId msgId : String)
    (doc : MessageData) (h : coll.any (MessageData.hasKey chatId msgId) = false) :
    updateOneUpsert coll chatId msgId doc
      = (coll ++ [doc], { matchedCount := 0, upsertedCount := 1 }) := by
  simp [updateOneUpsert, h]

theorem updateOneUpsert_any (coll : List MessageData) (doc : MessageData) :
    (updateOneUpsert coll doc.chatId doc.msgId doc).1.any
      (MessageData.hasKey doc.chatId doc.msgId) = true := by
  cases h : coll.any (MessageData.hasKey doc.chatId doc.msgId) with
  | true => rw [updateOneUpsert_present _ _ _ _ h]; exact h
  | false =>
    rw [updateOneUpsert_absent _ _ _ _ h]
    simp [MessageData.hasKey]

theorem updateOneUpsert_unique (coll : List MessageData) (doc : MessageData)
    (h : UniqueKeys coll) : UniqueKeys (updateOneUpsert coll doc.chatId doc.msgId doc).1 := by
  cases hany : coll.any (MessageData.hasKey doc.chatId doc.msgId) with
  | true => rw [updateOneUpsert_present _ _ _ _ hany]; exact h
  | false =>
    rw [updateOneUpsert_absent _ _ _ _ hany]
    unfold UniqueKeys at *
    rw [List.pairwise_append]
    refine ⟨h, List.pairwise_singleton _ _, ?_⟩
    intro a ha b hb
    rw [List.mem_singleton] at hb
    subst hb
    intro hk
    have hn : ¬ (coll.any (MessageData.hasKey b.chatId b.msgId) = true) := by simp [hany]
    exact hn (List.any_eq_true.mpr ⟨a, ha, (hasKey_iff _ _ _).mpr hk⟩)

/-- The collection after a run of `processAndSaveMessage` (`wa3.js`) is the collection
before it, or the result of the one upsert the run made. -/
theorem processAndSaveMessage_store (w : MsgWorld) (coll : List MessageData) (msg : RawMsg) :
    (processAndSaveMessage w coll msg).store = coll ∨
    ∃ doc, (processAndSaveMessage w coll msg).store
      = (updateOneUpsert coll doc.chatId doc.msgId doc).1 := by
  rcases w with ⟨gc, gk, now, wr⟩
  rcases msg with ⟨id, sender, fromMe, ts, body, ty, hasMedia, hasQ, qid, rawData⟩
  rcases gc with e | ⟨cid, cname, grp⟩
  · left
    cases id <;> simp only [processAndSaveMessage, processAndSaveMessageTry] <;> split_ifs <;> rfl
  rcases gk with e | contact
  · left
    cases id <;> simp only [processAndSaveMessage, processAndSaveMessageTry] <;> split_ifs <;> rfl
  rcases id with _ | msgId
  · left
    simp only [processAndSaveMessage, processAndSaveMessageTry]; split_ifs <;> rfl
  rcases cid with _ | chatId
  · left
    simp only [processAndSaveMessage, processAndSaveMessageTry]; split_ifs <;> rfl
  rcases wr with _ | e
  swap
  · left
    simp only [processAndSaveMessage, processAndSaveMessageTry]; split_ifs <;> rfl
  right
  refine ⟨messageData ⟨some msgId, sender, fromMe, ts, body, ty, hasMedia, hasQ, qid, rawData⟩
    ⟨some chatId, cname, grp⟩ contact msgId chatId now, ?_⟩
  cases body <;>
    simp only [processAndSaveMessage, processAndSaveMessageTry, messageData] <;>
    split_ifs <;> rfl

/-- The run of `processAndSaveMessage` (`wa3.js`) in which both lookups answer, the event
has its identity and the write completes: the collection is the upsert's, and nothing
escapes. -/
theorem processAndSaveMessage_written (w : MsgWorld) (coll : List MessageData) (msg : RawMsg)
    (chat : Chat) (contact : Contact) (msgId chatId : String)
    (hchat : w.getChat = .ok chat) (hcontact : w.getContact = .ok contact)
    (hid : msg.id = some msgId) (hcid : chat.id = some chatId) (hwrite : w.write = none) :
    (processAndSaveMessage w coll msg).store
        = (updateOneUpsert coll chatId msgId
            (messageData msg chat contact msgId chatId w.now)).1 ∧
      (processAndSaveMessage w coll msg).result = .ok () := by
  rcases msg with ⟨id, sender, fromMe, ts, body, ty, hasMedia, hasQ, qid, rawData⟩
  simp only at hid
  subst hid
  cases body <;>
    simp only [processAndSaveMessage, processAndSaveMessageTry, hchat, hcontact, hcid, hwrite,
      messageData] <;>
    split_ifs <;> simp [typeError]

/-- The run of `processAndSaveMessage` (`wa3.js`) on a collection that already holds the
key: the upsert matches and the run is the three calls, with no line on the console. -/
theorem processAndSaveMessage_present (w : MsgWorld) (coll : List MessageData) (msg : RawMsg)
    (chat : Chat) (contact : Contact) (msgId chatId : String)
    (hchat : w.getChat = .ok chat) (hcontact : w.getContact = .ok contact)
    (hid : msg.id = some msgId) (hcid : chat.id = some chatId) (hwrite : w.write = none)
    (hany : coll.any (MessageData.hasKey chatId msgId) = true) :
    (processAndSaveMessage w coll msg).store = coll ∧
      (processAndSaveMessage w coll msg).trace
        = [.getChat, .getContact,
            .upsertMessage (messageData msg chat contact msgId chatId w.now)] ∧
      (processAndSaveMessage w coll msg).result = .ok () := by
  have hu := updateOneUpsert_present coll chatId msgId
    (messageData msg chat contact msgId chatId w.now) hany
  simp only [messageData] at hu
  simp [processAndSaveMessage, processAndSaveMessageTry, hchat, hcontact, hid, hcid, hwrite,
    messageData, hu]

/-- C1 (amended). Archiving the same event twice through `processAndSaveMessage`, with the
lookups answering and the writes completing: the second call's upsert reports
`upsertedCount = 0`, changes nothing, prints no "new message" line and raises no error,
whatever the collection held; and when the collection held no record with the key
`(chatId, msgId)`, it ends with exactly one, equal to the first call's payload with the
first call's `processedAt`. -/
theorem archive_twice_first_writer_wins (w1 w2 : MsgWorld) (coll : List MessageData)
    (msg : RawMsg) (chat1 chat2 : Chat) (contact1 contact2 : Contact) (msgId chatId : String)
    (hid : msg.id = some msgId)
    (hchat1 : w1.getChat = .ok chat1) (hchat2 : w2.getChat = .ok chat2)
    (hcid1 : chat1.id = some chatId) (hcid2 : chat2.id = some chatId)
    (hcontact1 : w1.getContact = .ok contact1) (hcontact2 : w2.getContact = .ok contact2)
    (hwrite1 : w1.write = none) (hwrite2 : w2.write = none) :
    (updateOneUpsert (processAndSaveMessage w1 coll msg).store chatId msgId
        (messageData msg chat2 contact2 msgId chatId w2.now)).2.upsertedCount = 0 ∧
    (processAndSaveMessage w2 (processAndSaveMessage w1 coll msg).store msg).store
        = (processAndSaveMessage w1 coll msg).store ∧
    (processAndSaveMessage w2 (processAndSaveMessage w1 coll msg).store msg).result = .ok () ∧
    Effect.consoleLog ∉
      (processAndSaveMessage w2 (processAndSaveMessage w1 coll msg).store msg).trace ∧
    (coll.any (MessageData.hasKey chatId msgId) = false →
      (processAndSaveMessage w2 (processAndSaveMessage w1 coll msg).store msg).store.filter
          (MessageData.hasKey chatId msgId)
        = [messageData msg chat1 contact1 msgId chatId w1.now]) := by
  obtain ⟨hs1, _⟩ := processAndSaveMessage_written w1 coll msg chat1 contact1 msgId chatId
    hchat1 hcontact1 hid hcid1 hwrite1
  have hany : (processAndSaveMessage w1 coll msg).store.any
      (MessageData.hasKey chatId msgId) = true := by
    rw [hs1]
    exact updateOneUpsert_any coll (messageData msg chat1 contact1 msgId chatId w1.now)
  obtain ⟨hs2, ht2, hr2⟩ := processAndSaveMessage_present w2 _ msg chat2 contact2 msgId chatId
    hchat2 hcontact2 hid hcid2 hwrite2 hany
  refine ⟨?_, hs2, hr2, ?_, ?_⟩
  · rw [updateOneUpsert_present _ _ _ _ hany]
  · rw [ht2]; simp
  · intro hfresh
    rw [hs2, hs1, updateOneUpsert_absent _ _ _ _ hfresh]
    have hnil : coll.filter (MessageData.hasKey chatId msgId) = [] := by
      rw [List.filter_eq_nil_iff]
      intro a ha hk
      have : coll.any (MessageData.hasKey chatId msgId) = true :=
        List.any_eq_true.mpr ⟨a, ha, hk⟩
      rw [hfresh] at this
      exact Bool.noConfusion this
    simp [List.filter_append, hnil, MessageData.hasKey, messageData]

/-- C1, witness: `sampleMsg` archived at clock values `7` and `8` into the empty
collection. -/
theorem archive_twice_first_writer_wins_witness :
    (updateOneUpsert (processAndSaveMessage (worldAt 7) [] sampleMsg).store "c1" "m1"
        (messageData sampleMsg sampleChat sampleContact "m1" "c1" 8)).2.upsertedCount = 0 ∧
    (processAndSaveMessage (worldAt 8) (processAndSaveMessage (worldAt 7) [] sampleMsg).store
        sampleMsg).store = (processAndSaveMessage (worldAt 7) [] sampleMsg).store ∧
    (processAndSaveMessage (worldAt 8) (processAndSaveMessage (worldAt 7) [] sampleMsg).store
        sampleMsg).result = .ok () ∧
    Effect.consoleLog ∉
      (processAndSaveMessage (worldAt 8) (processAndSaveMessage (worldAt 7) [] sampleMsg).store
        sampleMsg).trace ∧
    (processAndSaveMessage (worldAt 8) (processAndSaveMessage (worldAt 7) [] sampleMsg).store
        sampleMsg).store.filter (MessageData.hasKey "c1" "m1")
      = [messageData sampleMsg sampleChat sampleContact "m1" "c1" 7] := by
  have h := archive_twice_first_writer_wins (worldAt 7) (worldAt 8) [] sampleMsg sampleChat
    sampleChat sampleContact sampleContact "m1" "c1" rfl rfl rfl rfl rfl rfl rfl rfl rfl
  exact ⟨h.1, h.2.1, h.2.2.1, h.2.2.2.1, h.2.2.2.2 rfl⟩

/-- C1, counterexample to "for every store state": the collection already holds a record
under the key of `sampleMsg`, archived at clock value `1`.  After `sampleMsg` is archived
at clock values `7` and `8` the one record under the key is still that earlier record, and
it is not the first call's payload. -/
theorem archive_twice_keeps_stored_record :
    (processAndSaveMessage (worldAt 8)
        (processAndSaveMessage (worldAt 7) [storedEarlier] sampleMsg).store
        sampleMsg).store.filter (MessageData.hasKey "c1" "m1") = [storedEarlier] ∧
    storedEarlier ≠ messageData sampleMsg sampleChat sampleContact "m1" "c1" 7 := by
  decide

/-- C2. `processAndSaveMessage` keeps the unique index `(chatId, msgId)`: run on a
collection with no two records under one key, it leaves such a collection, and every
record already stored is still there, unchanged and in place; at most one record is added
behind them. -/
theorem unique_keys_invariant (w : MsgWorld) (coll : List MessageData) (msg : RawMsg)
    (h : UniqueKeys coll) :
    UniqueKeys (processAndSaveMessage w coll msg).store ∧
    ∃ added, (processAndSaveMessage w coll msg).store = coll ++ added ∧ added.length ≤ 1 := by
  rcases processAndSaveMessage_store w coll msg with hs | ⟨doc, hs⟩
  · rw [hs]; exact ⟨h, [], by simp, by simp⟩
  · rw [hs]
    refine ⟨updateOneUpsert_unique coll doc h, ?_⟩
    cases hany : coll.any (MessageData.hasKey doc.chatId doc.msgId) with
    | true => rw [updateOneUpsert_present _ _ _ _ hany]; exact ⟨[], by simp, by simp⟩
    | false => rw [updateOneUpsert_absent _ _ _ _ hany]; exact ⟨[doc], rfl, by simp⟩

/-- C2, witness: `sampleMsg` archived into a collection of one record. -/
theorem unique_keys_invariant_witness :
    UniqueKeys [storedEarlier] ∧
    UniqueKeys (processAndSaveMessage (worldAt 7) [storedEarlier] sampleMsg).store ∧
    ∃ added, (processAndSaveMessage (worldAt 7) [storedEarlier] sampleMsg).store
      = [storedEarlier] ++ added ∧ added.length ≤ 1 :=
  ⟨List.pairwise_singleton _ _,
    unique_keys_invariant (worldAt 7) [storedEarlier] sampleMsg (List.pairwise_singleton _ _)⟩

/-! ## Classification of platform errors -/

theorem includesChars_iff (s p : List Char) : includesChars s p = true ↔ p <:+: s := by
  induction s with
  | nil => simp [includesChars, List.infix_nil]
  | cons c s ih =>
    simp only [includesChars, Bool.or_eq_true, List.isPrefixOf_iff_prefix, ih,
      List.infix_cons_iff]

/-- A text that contains a marker contains, once lower-cased, the lower-cased marker. -/
theorem includes_toLowerCase (s p : String) (h : includes s p = true) :
    includes (toLowerCase s) (toLowerCase p) = true := by
  unfold includes at *
  rw [includesChars_iff] at *
  obtain ⟨a, b, hab⟩ := h
  refine ⟨a.flatMap lowerChar, b.flatMap lowerChar, ?_⟩
  show a.flatMap lowerChar ++ p.data.flatMap lowerChar ++ b.flatMap lowerChar
    = s.data.flatMap lowerChar
  rw [← hab, List.flatMap_append, List.flatMap_append]

/-- The run of `attemptToJoinGroup` when the platform join raises an error with a message:
one join call, then one write of the classified status with that message. -/
theorem attemptToJoinGroup_rejected (w : JoinWorld) (coll : List InviteDoc) (doc : InviteDoc)
    (message : String) (code : Option Nat)
    (hjoin : w.acceptInvite = .error { message := some message, code := code }) :
    (attemptToJoinGroup w coll doc).trace
        = [.consoleLog, .acceptInvite (inviteCodeOf doc.inviteLink), .consoleError,
            .updateInvite doc._id
              { status := classifyError message, lastAttempt := w.now2,
                errorMessage := some message }] ∧
      (w.write2 = none →
        (attemptToJoinGroup w coll doc).store
          = updateOneSet doc._id
              { status := classifyError message, lastAttempt := w.now2,
                errorMessage := some message } coll) := by
  cases hw : w.write2 <;> simp [attemptToJoinGroup, attemptToJoinGroupTry, hjoin, hw]

/-- C3. An error message that contains `"invite_link_expired"`, or another of the
invalid-link markers, is classified `invalid_link` whatever else it contains, and that is
the status `attemptToJoinGroup` writes when the platform join raises it. -/
theorem invalid_link_marker_wins (w : JoinWorld) (coll : List InviteDoc) (doc : InviteDoc)
    (message marker : String) (code : Option Nat)
    (hmarker : marker ∈
      ["invite_link_expired", "invalid", "not a valid invite code", "no longer valid"])
    (hcontains : includes message marker = true)
    (hjoin : w.acceptInvite = .error { message := some message, code := code }) :
    classifyError message = Status.invalid_link ∧
    (attemptToJoinGroup w coll doc).trace
      = [.consoleLog, .acceptInvite (inviteCodeOf doc.inviteLink), .consoleError,
          .updateInvite doc._id
            { status := Status.invalid_link, lastAttempt := w.now2,
              errorMessage := some message }] := by
  have hlow := includes_toLowerCase message marker hcontains
  have hcls : classifyError message = Status.invalid_link := by
    simp only [List.mem_cons, List.mem_singleton, List.not_mem_nil, or_false] at hmarker
    rcases hmarker with rfl | rfl | rfl | rfl
    · have hm : toLowerCase "invite_link_expired" = "invite_link_expired" := by decide
      rw [hm] at hlow
      simp [classifyError, hlow]
    · have hm : toLowerCase "invalid" = "invalid" := by decide
      rw [hm] at hlow
      simp [classifyError, hlow]
    · have hm : toLowerCase "not a valid invite code" = "not a valid invite code" := by decide
      rw [hm] at hlow
      simp [classifyError, hlow]
    · have hm : toLowerCase "no longer valid" = "no longer valid" := by decide
      rw [hm] at hlow
      simp [classifyError, hlow]
  refine ⟨hcls, ?_⟩
  rw [(attemptToJoinGroup_rejected w coll doc message code hjoin).1, hcls]

/-- C3, witness: the text "invalid and already a participant" holds the marker
`"invalid"` and is written as `invalid_link`, not `joined`. -/
theorem invalid_link_marker_wins_witness :
    includes "invalid and already a participant" "invalid" = true ∧
    classifyError "invalid and already a participant" = Status.invalid_link ∧
    (attemptToJoinGroup (rejectWith "invalid and already a participant") [sampleInvite]
        sampleInvite).trace
      = [.consoleLog, .acceptInvite (inviteCodeOf sampleInvite.inviteLink), .consoleError,
          .updateInvite sampleInvite._id
            { status := Status.invalid_link,
              lastAttempt := (rejectWith "invalid and already a participant").now2,
              errorMessage := some "invalid and already a participant" }] :=
  ⟨by decide,
    invalid_link_marker_wins (rejectWith "invalid and already a participant") [sampleInvite]
      sampleInvite "invalid and already a participant" "invalid" none (by decide) (by decide)
      rfl⟩

/-- C4, counterexample: the platform join raises "Error: already a participant".  The
text holds neither `"already in group"` nor `"is already a participant"`, so the status
written is `failed`, and the record ends `failed` with that text as its error message. -/
theorem already_a_participant_text_is_failed :
    classifyError "Error: already a participant" = Status.failed ∧
    (attemptToJoinGroup (rejectWith "Error: already a participant") [sampleInvite]
        sampleInvite).store
      = [{ sampleInvite with
            status := Status.failed, lastAttempt := some 11,
            errorMessage := some "Error: already a participant" }] := by
  decide

/-- C4 (amended). When the platform join raises an error whose lower-cased message holds
`"already in group"` or `"is already a participant"` and none of the invalid-link markers,
`attemptToJoinGroup` writes the status `joined`, and once the write completes the record
is `joined`. -/
theorem already_in_group_counts_as_joined (w : JoinWorld) (coll : List InviteDoc)
    (doc : InviteDoc) (message : String) (code : Option Nat)
    (hjoin : w.acceptInvite = .error { message := some message, code := code })
    (hmember : includes (toLowerCase message) "already in group" = true ∨
      includes (toLowerCase message) "is already a participant" = true)
    (hvalid : ∀ marker ∈
      ["invite_link_expired", "invalid", "not a valid invite code", "no longer valid"],
      includes (toLowerCase message) marker = false)
    (hwrite : w.write2 = none) :
    classifyError message = Status.joined ∧
    (attemptToJoinGroup w coll doc).trace
      = [.consoleLog, .acceptInvite (inviteCodeOf doc.inviteLink), .consoleError,
          .updateInvite doc._id
            { status := Status.joined, lastAttempt := w.now2,
              errorMessage := some message }] ∧
    (attemptToJoinGroup w coll doc).store
      = updateOneSet doc._id
          { status := Status.joined, lastAttempt := w.now2, errorMessage := some message }
          coll ∧
    (attemptToJoinGroup w coll doc).result = .ok false := by
  have h1 := hvalid "invite_link_expired" (by simp)
  have h2 := hvalid "invalid" (by simp)
  have h3 := hvalid "not a valid invite code" (by simp)
  have h4 := hvalid "no longer valid" (by simp)
  have hcls : classifyError message = Status.joined := by
    rcases hmember with h | h <;> simp [classifyError, h1, h2, h3, h4, h]
  obtain ⟨ht, hs⟩ := attemptToJoinGroup_rejected w coll doc message code hjoin
  refine ⟨hcls, ?_, ?_, ?_⟩
  · rw [ht, hcls]
  · rw [hs hwrite, hcls]
  · simp [attemptToJoinGroup, attemptToJoinGroupTry, hjoin, hwrite]

/-- C4, witness: the text "Error: user is already a participant". -/
theorem already_in_group_counts_as_joined_witness :
    classifyError "Error: user is already a participant" = Status.joined ∧
    (attemptToJoinGroup (rejectWith "Error: user is already a participant") [sampleInvite]
        sampleInvite).trace
      = [.consoleLog, .acceptInvite (inviteCodeOf sampleInvite.inviteLink), .consoleError,
          .updateInvite sampleInvite._id
            { status := Status.joined,
              lastAttempt := (rejectWith "Error: user is already a participant").now2,
              errorMessage := some "Error: user is already a participant" }] ∧
    (attemptToJoinGroup (rejectWith "Error: user is already a participant") [sampleInvite]
        sampleInvite).store
      = updateOneSet sampleInvite._id
          { status := Status.joined,
            lastAttempt := (rejectWith "Error: user is already a participant").now2,
            errorMessage := some "Error: user is already a participant" }
          [sampleInvite] ∧
    (attemptToJoinGroup (rejectWith "Error: user is already a participant") [sampleInvite]
        sampleInvite).result = .ok false :=
  already_in_group_counts_as_joined (rejectWith "Error: user is already a participant")
    [sampleInvite] sampleInvite "Error: user is already a participant" none rfl
    (Or.inr (by decide)) (by decide) rfl

/-- C5, counterexample: three messages that match a rule of the specification's table
by its name (expired, not a valid code, already a participant) and none of the texts the
code searches for.  The table gives `invalid_link`, `invalid_link` and `joined`; the code
derives `failed` for each. -/
theorem rule_names_are_not_the_markers :
    classifyByTable ruleTable "This link has expired" = Status.invalid_link ∧
    classifyError "This link has expired" = Status.failed ∧
    classifyByTable ruleTable "Not a valid code" = Status.invalid_link ∧
    classifyError "Not a valid code" = Status.failed ∧
    classifyByTable ruleTable "You are already a participant" = Status.joined ∧
    classifyError "You are already a participant" = Status.failed := by
  decide

/-- C5 (amended). The status `attemptToJoinGroup` derives from a platform error message,
and writes, is the one the priority-ordered table of the code's own texts gives on the
lower-cased message: `invalid_link` when it holds "invite_link_expired", "invalid",
"not a valid invite code" or "no longer valid"; otherwise `joined` when it holds
"already in group" or "is already a participant", also next to "group is full";
otherwise `group_full` when it holds "group is full"; otherwise `failed`.  It is one of
these four and never `pending`. -/
theorem classifyError_eq_marker_table (message : String) :
    classifyError message = classifyByTable markerTable message ∧
    (∀ (w : JoinWorld) (coll : List InviteDoc) (doc : InviteDoc) (code : Option Nat),
      w.acceptInvite = .error { message := some message, code := code } →
      (attemptToJoinGroup w coll doc).trace
        = [.consoleLog, .acceptInvite (inviteCodeOf doc.inviteLink), .consoleError,
            .updateInvite doc._id
              { status := classifyByTable markerTable message, lastAttempt := w.now2,
                errorMessage := some message }]) ∧
    (["invite_link_expired", "invalid", "not a valid invite code", "no longer valid"].any
        (includes (toLowerCase message)) = true →
      classifyError message = Status.invalid_link) ∧
    (["invite_link_expired", "invalid", "not a valid invite code", "no longer valid"].any
        (includes (toLowerCase message)) = false →
      ["already in group", "is already a participant"].any
        (includes (toLowerCase message)) = true →
      classifyError message = Status.joined) ∧
    (["invite_link_expired", "invalid", "not a valid invite code", "no longer valid"].any
        (includes (toLowerCase message)) = false →
      ["already in group", "is already a participant"].any
        (includes (toLowerCase message)) = false →
      includes (toLowerCase message) "group is full" = true →
      classifyError message = Status.group_full) ∧
    (["invite_link_expired", "invalid", "not a valid invite code", "no longer valid"].any
        (includes (toLowerCase message)) = false →
      ["already in group", "is already a participant"].any
        (includes (toLowerCase message)) = false →
      includes (toLowerCase message) "group is full" = false →
      classifyError message = Status.failed) ∧
    classifyError message ∈
      [Status.invalid_link, Status.joined, Status.group_full, Status.failed] ∧
    classifyError message ≠ Status.pending := by
  have htable : classifyError message = classifyByTable markerTable message := by
    simp only [classifyError, classifyByTable, markerTable, List.find?, List.any, Bool.or_false]
    cases includes (toLowerCase message) "invite_link_expired" <;>
    cases includes (toLowerCase message) "invalid" <;>
    cases includes (toLowerCase message) "not a valid invite code" <;>
    cases includes (toLowerCase message) "no longer valid" <;>
    cases includes (toLowerCase message) "already in group" <;>
    cases includes (toLowerCase message) "is already a participant" <;>
    cases includes (toLowerCase message) "group is full" <;> rfl
  refine ⟨htable, ?_, ?_⟩
  · intro w coll doc code hjoin
    rw [(attemptToJoinGroup_rejected w coll doc message code hjoin).1, htable]
  · simp only [classifyError, List.any, Bool.or_false]
    cases includes (toLowerCase message) "invite_link_expired" <;>
    cases includes (toLowerCase message) "invalid" <;>
    cases includes (toLowerCase message) "not a valid invite code" <;>
    cases includes (toLowerCase message) "no longer valid" <;>
    cases includes (toLowerCase message) "already in group" <;>
    cases includes (toLowerCase message) "is already a participant" <;>
    cases includes (toLowerCase message) "group is full" <;> simp

/-- C5, at a message that holds an already-in-group text next to "group is full", at one
that holds only "group is full", at one that holds none of the texts, and at one whose
"invite_link_expired" is spelled in capitals with U+212A KELVIN SIGN for the `K`. -/
theorem classifyError_eq_marker_table_witness :
    classifyError "You are already in group; group is full" = Status.joined ∧
    classifyError "Group is full" = Status.group_full ∧
    classifyError "Evaluation failed: timeout" = Status.failed ∧
    classifyError "INVITE_LIN\u212A_EXPIRED" = Status.invalid_link ∧
    (attemptToJoinGroup (rejectWith "Group is full") [sampleInvite] sampleInvite).trace
      = [.consoleLog, .acceptInvite (inviteCodeOf sampleInvite.inviteLink), .consoleError,
          .updateInvite sampleInvite._id
            { status := classifyByTable markerTable "Group is full",
              lastAttempt := (rejectWith "Group is full").now2,
              errorMessage := some "Group is full" }] :=
  ⟨(classifyError_eq_marker_table "You are already in group; group is full").2.2.2.1
      (by decide) (by decide),
    (classifyError_eq_marker_table "Group is full").2.2.2.2.1
      (by decide) (by decide) (by decide),
    (classifyError_eq_marker_table "Evaluation failed: timeout").2.2.2.2.2.1
      (by decide) (by decide) (by decide),
    (classifyError_eq_marker_table "INVITE_LIN\u212A_EXPIRED").2.2.1 (by decide),
    (classifyError_eq_marker_table "Group is full").2.1 (rejectWith "Group is full")
      [sampleInvite] sampleInvite none rfl⟩

/-! ## The sequential and the interleaved reading agree -/

theorem drive_eq_processSingleGroupInvite (w : InviteWorld) (s : Processor) :
    drive w 4 (step ⟨s, [], []⟩ Event.tick)
      = ⟨(processSingleGroupInvite w s).store, [], (processSingleGroupInvite w s).trace⟩ := by
  rcases s with ⟨latch, ci, pp, inv⟩
  rcases w with ⟨f, ⟨acc, n1, w1, n2, w2⟩⟩
  cases latch
  swap
  · simp [processSingleGroupInvite, step, drive]
  cases ci
  · simp [processSingleGroupInvite, step, drive]
  cases pp
  · simp [processSingleGroupInvite, step, drive]
  cases f with
  | some e =>
    simp [processSingleGroupInvite, processSingleGroupInviteTry, settleBy, step, Sys.finish, drive]
  | none =>
    cases hfind : findOnePending inv with
    | none =>
      simp [processSingleGroupInvite, processSingleGroupInviteTry, settleBy, step, Sys.finish,
        drive, hfind]
    | some doc =>
      rcases acc with ⟨_ | m, code⟩ | g
      · simp [processSingleGroupInvite, processSingleGroupInviteTry, hfind, Sys.suspend, drive,
          settleBy, step, Sys.catchJoin, Sys.finish, attemptToJoinGroup, attemptToJoinGroupTry]
      · cases w2 <;>
        simp [processSingleGroupInvite, processSingleGroupInviteTry, hfind, Sys.suspend, drive,
          settleBy, step, Sys.catchJoin, Sys.finish, attemptToJoinGroup, attemptToJoinGroupTry,
          Sys.written]
      · rcases w1 with _ | ⟨_ | m, code⟩
        · simp [processSingleGroupInvite, processSingleGroupInviteTry, hfind, Sys.suspend, drive,
            settleBy, step, Sys.finish, attemptToJoinGroup, attemptToJoinGroupTry, Sys.written]
        · simp [processSingleGroupInvite, processSingleGroupInviteTry, hfind, Sys.suspend, drive,
            settleBy, step, Sys.catchJoin, Sys.finish, attemptToJoinGroup, attemptToJoinGroupTry]
        · cases w2 <;>
          simp [processSingleGroupInvite, processSingleGroupInviteTry, hfind, Sys.suspend, drive,
            settleBy, step, Sys.catchJoin, Sys.finish, attemptToJoinGroup, attemptToJoinGroupTry,
            Sys.written]

/-! ## The latch -/

theorem latchCounts_finish (s : Sys) (i : Nat) (tr : List Effect) (h : LatchCounts s)
    (hi : i < s.runs.length) : LatchCounts (s.finish i tr) := by
  unfold LatchCounts at *
  have hlen : s.runs.length = 1 := by
    split_ifs at h
    · exact h
    · omega
  show (s.runs.eraseIdx i).length = if false = true then 1 else 0
  rw [List.length_eraseIdx, if_pos hi, hlen]
  rfl

theorem latchCounts_suspend (s : Sys) (i : Nat) (pc : Pc) (tr : List Effect)
    (h : LatchCounts s) : LatchCounts (s.suspend i pc tr) := by
  unfold LatchCounts at *
  simpa [Sys.suspend] using h

theorem latchCounts_written (s : Sys) (doc : InviteDoc) (set : InviteSet)
    (h : LatchCounts s) : LatchCounts (s.written doc set) := by
  unfold LatchCounts at *
  simpa [Sys.written] using h

theorem latchCounts_catchJoin (s : Sys) (i : Nat) (doc : InviteDoc) (e : JsError) (now : Nat)
    (h : LatchCounts s) (hi : i < s.runs.length) : LatchCounts (s.catchJoin i doc e now) := by
  unfold Sys.catchJoin
  split
  · exact latchCounts_finish s i _ h hi
  · exact latchCounts_suspend s i _ _ h

/-- Every synchronous segment keeps the count. -/
theorem latchCounts_step (s : Sys) (ev : Event) (h : LatchCounts s) : LatchCounts (step s ev) := by
  cases ev with
  | tick =>
    simp only [step]
    split_ifs with h1 h2
    · exact h
    · unfold LatchCounts at *
      simpa using h
    · unfold LatchCounts at *
      simp only [h1] at h
      simp [h]
  | outside a b c =>
    unfold LatchCounts at *
    simpa [step] using h
  | settle i reply now =>
    simp only [step]
    split
    · exact h
    all_goals
      rename_i heq
      have hi : i < s.runs.length := by
        rw [List.get?_eq_some] at heq
        exact heq.1
    · split
      · exact latchCounts_finish s i _ h hi
      · split
        · exact latchCounts_finish s i _ h hi
        · exact latchCounts_suspend s i _ _ h
    · split
      · exact latchCounts_suspend s i _ _ h
      · exact latchCounts_catchJoin s i _ _ _ h hi
    · split
      · exact latchCounts_finish _ i _ (latchCounts_written s _ _ h) (by simpa [Sys.written] using hi)
      · exact latchCounts_catchJoin s i _ _ _ h hi
    · split
      · exact latchCounts_finish _ i _ (latchCounts_written s _ _ h) (by simpa [Sys.written] using hi)
      · exact latchCounts_finish s i _ h hi

theorem latchCounts_runEvents (s : Sys) (evs : List Event) (h : LatchCounts s) :
    LatchCounts (runEvents s evs) := by
  induction evs generalizing s with
  | nil => exact h
  | cons ev evs ih => exact ih (step s ev) (latchCounts_step s ev h)

/-- C6. A call of `processSingleGroupInvite` that finds the latch held issues no effect at
all (no store call, no platform call), returns without error and leaves the module state,
latch and invite records included, as it was; the same holds of the call as a segment
between other runs.  Hence, from a state with the latch clear and no run under way,
whatever the event loop dispatches, at most one run is ever past the latch. -/
theorem latch_held_run_is_skipped (w : InviteWorld) (s : Processor)
    (h : s.isProcessingSingleInvite = true) :
    (processSingleGroupInvite w s).store = s ∧
    (processSingleGroupInvite w s).trace = [] ∧
    (processSingleGroupInvite w s).result = .ok () ∧
    (∀ runs trace, step ⟨s, runs, trace⟩ Event.tick = ⟨s, runs, trace⟩) ∧
    (∀ (p : Processor) (evs : List Event), p.isProcessingSingleInvite = false →
      (runEvents ⟨p, [], []⟩ evs).runs.length ≤ 1) := by
  refine ⟨?_, ?_, ?_, ?_, ?_⟩
  · simp [processSingleGroupInvite, h]
  · simp [processSingleGroupInvite, h]
  · simp [processSingleGroupInvite, h]
  · intro runs trace
    simp [step, h]
  · intro p evs hp
    have hinv : LatchCounts (runEvents ⟨p, [], []⟩ evs) :=
      latchCounts_runEvents _ evs (by simp [LatchCounts, hp])
    unfold LatchCounts at hinv
    rw [hinv]
    split_ifs <;> omega

/-- C6, witness: the latch is held; and a history in which the timer fires three times
around one run. -/
theorem latch_held_run_is_skipped_witness :
    (readyProcessor true).isProcessingSingleInvite = true ∧
    (processSingleGroupInvite calmWorld (readyProcessor true)).store = readyProcessor true ∧
    (processSingleGroupInvite calmWorld (readyProcessor true)).trace = [] ∧
    (processSingleGroupInvite calmWorld (readyProcessor true)).result = .ok () ∧
    step ⟨readyProcessor true, [Pc.findOne], [Effect.findOnePending]⟩ Event.tick
      = ⟨readyProcessor true, [Pc.findOne], [Effect.findOnePending]⟩ ∧
    (runEvents ⟨readyProcessor false, [], []⟩
      [Event.tick, Event.tick, Event.settle 0 (.ok "") 3, Event.tick]).runs.length ≤ 1 := by
  have h := latch_held_run_is_skipped calmWorld (readyProcessor true) rfl
  exact ⟨rfl, h.1, h.2.1, h.2.2.1, h.2.2.2.1 _ _, h.2.2.2.2 _ _ rfl⟩

/-- C7. A run of `processSingleGroupInvite` that acquires the latch (latch clear, session
ready) ends with the latch clear and without an error escaping it, whatever the store
and the platform answer: no pending invite, a join, a platform error, a failing lookup or
a failing write.  Driven by those answers as an interleaved run it takes the latch, then
completes with the latch clear; and in every history started by it, whenever no run is
suspended the latch is clear. -/
theorem latch_released_on_every_path (w : InviteWorld) (s : Processor)
    (hfree : s.isProcessingSingleInvite = false) (hinfo : s.clientInfo = true)
    (hpage : s.pupPage = true) :
    (processSingleGroupInvite w s).store.isProcessingSingleInvite = false ∧
    (processSingleGroupInvite w s).result = .ok () ∧
    (step ⟨s, [], []⟩ Event.tick).proc.isProcessingSingleInvite = true ∧
    (step ⟨s, [], []⟩ Event.tick).runs = [Pc.findOne] ∧
    (drive w 4 (step ⟨s, [], []⟩ Event.tick)).runs = [] ∧
    (drive w 4 (step ⟨s, [], []⟩ Event.tick)).proc.isProcessingSingleInvite = false ∧
    (∀ evs, (runEvents (step ⟨s, [], []⟩ Event.tick) evs).runs = [] →
      (runEvents (step ⟨s, [], []⟩ Event.tick) evs).proc.isProcessingSingleInvite = false) := by
  have hstore : (processSingleGroupInvite w s).store.isProcessingSingleInvite = false := by
    simp [processSingleGroupInvite, hfree, hinfo, hpage]
  have hres : (processSingleGroupInvite w s).result = .ok () := by
    simp only [processSingleGroupInvite, hfree, hinfo, hpage]
    simp only [Bool.false_eq_true, if_false, Bool.not_true, Bool.or_self]
    split <;> rfl
  refine ⟨hstore, hres, ?_, ?_, ?_, ?_, ?_⟩
  · simp [step, hfree, hinfo, hpage]
  · simp [step, hfree, hinfo, hpage]
  · rw [drive_eq_processSingleGroupInvite]
  · rw [drive_eq_processSingleGroupInvite]
    exact hstore
  · intro evs hruns
    have hinv : LatchCounts (runEvents (step ⟨s, [], []⟩ Event.tick) evs) :=
      latchCounts_runEvents _ evs
        (latchCounts_step _ _ (by simp [LatchCounts, hfree]))
    unfold LatchCounts at hinv
    rw [hruns] at hinv
    cases hl : (runEvents (step ⟨s, [], []⟩ Event.tick) evs).proc.isProcessingSingleInvite with
    | false => rfl
    | true => simp [hl] at hinv

/-- C7, witness: the join is accepted and both writes of the outcome fail. -/
theorem latch_released_on_every_path_witness :
    (readyProcessor false).isProcessingSingleInvite = false ∧
    (processSingleGroupInvite stormyWorld (readyProcessor false)).store.isProcessingSingleInvite
      = false ∧
    (processSingleGroupInvite stormyWorld (readyProcessor false)).result = .ok () ∧
    (step ⟨readyProcessor false, [], []⟩ Event.tick).proc.isProcessingSingleInvite = true ∧
    (step ⟨readyProcessor false, [], []⟩ Event.tick).runs = [Pc.findOne] ∧
    (drive stormyWorld 4 (step ⟨readyProcessor false, [], []⟩ Event.tick)).runs = [] ∧
    (drive stormyWorld 4
      (step ⟨readyProcessor false, [], []⟩ Event.tick)).proc.isProcessingSingleInvite = false ∧
    (runEvents (step ⟨readyProcessor false, [], []⟩ Event.tick)
      [Event.settle 0 (.error storeDown) 3]).proc.isProcessingSingleInvite = false := by
  have h := latch_released_on_every_path stormyWorld (readyProcessor false) rfl rfl rfl
  exact ⟨rfl, h.1, h.2.1, h.2.2.1, h.2.2.2.1, h.2.2.2.2.1, h.2.2.2.2.2.1,
    h.2.2.2.2.2.2 [Event.settle 0 (.error storeDown) 3] rfl⟩

/-- C8. A call of `processSingleGroupInvite` made while `client.info` or `client.pupPage`
is absent makes no store call and no platform call, returns without error and leaves the
module state as it was, so the latch is not taken; this holds of every call, in whatever
state it is made, also as a segment between other runs. -/
theorem not_ready_run_does_nothing (w : InviteWorld) (s : Processor)
    (hnot : s.clientInfo = false ∨ s.pupPage = false) :
    (processSingleGroupInvite w s).store = s ∧
    (∀ e ∈ (processSingleGroupInvite w s).trace,
      e.isStoreCall = false ∧ e.isPlatformCall = false) ∧
    (processSingleGroupInvite w s).result = .ok () ∧
    (∀ runs trace, (step ⟨s, runs, trace⟩ Event.tick).proc = s ∧
      (step ⟨s, runs, trace⟩ Event.tick).runs = runs ∧
      ∀ e ∈ (step ⟨s, runs, trace⟩ Event.tick).trace, e ∈ trace ∨ e = Effect.consoleLog) := by
  have hgate : (!s.clientInfo || !s.pupPage) = true := by
    rcases hnot with h | h <;> simp [h]
  refine ⟨?_, ?_, ?_, ?_⟩
  · simp only [processSingleGroupInvite, hgate]
    split_ifs <;> rfl
  · intro e he
    simp only [processSingleGroupInvite, hgate] at he
    split_ifs at he
    · simp at he
    · simp only [if_true, List.mem_singleton] at he
      subst he
      exact ⟨rfl, rfl⟩
  · simp only [processSingleGroupInvite, hgate]
    split_ifs <;> rfl
  · intro runs trace
    simp only [step, hgate]
    split_ifs
    · exact ⟨rfl, rfl, fun e he => Or.inl he⟩
    · refine ⟨rfl, rfl, fun e he => ?_⟩
      simpa using he

/-- C8, witness: `client.info` is not set yet. -/
theorem not_ready_run_does_nothing_witness :
    (notReadyProcessor.clientInfo = false ∨ notReadyProcessor.pupPage = false) ∧
    (processSingleGroupInvite calmWorld notReadyProcessor).store = notReadyProcessor ∧
    (processSingleGroupInvite calmWorld notReadyProcessor).trace = [Effect.consoleLog] ∧
    (processSingleGroupInvite calmWorld notReadyProcessor).result = .ok () ∧
    (step ⟨notReadyProcessor, [], []⟩ Event.tick).runs = [] := by
  have h := not_ready_run_does_nothing calmWorld notReadyProcessor (Or.inl rfl)
  exact ⟨Or.inl rfl, h.1, rfl, h.2.2.1, (h.2.2.2 [] []).2.1⟩

/-! ## The outcome written back -/

/-- C9, counterexample: the platform join raises "already in group".  The one status
update of the attempt writes the status `joined` together with that text as
`errorMessage`, not `null`. -/
theorem joined_written_with_error_text :
    (attemptToJoinGroup (rejectWith "already in group") [sampleInvite]
        sampleInvite).trace.filter Effect.isStoreCall
      = [.updateInvite 1
          { status := Status.joined, lastAttempt := 11,
            errorMessage := some "already in group" }] := by
  decide

/-- C9 (amended). In an attempt of `attemptToJoinGroup` whose platform join raises an
error carrying a message, or succeeds with the status write completing, exactly one store
call is issued, a status update of the invite; it writes `errorMessage: null` with the
status `joined` when the join succeeded, and the raw platform error text with the
classified status (which may be `joined`) when the join raised an error. -/
theorem one_status_update_per_attempt (w : JoinWorld) (coll : List InviteDoc)
    (doc : InviteDoc)
    (hattempt : (∃ g, w.acceptInvite = .ok g ∧ w.write1 = none) ∨
      ∃ m code, w.acceptInvite = .error { message := some m, code := code }) :
    ∃ set, (attemptToJoinGroup w coll doc).trace.filter Effect.isStoreCall
        = [.updateInvite doc._id set] ∧
      (∀ g, w.acceptInvite = .ok g →
        set = { status := Status.joined, lastAttempt := w.now1, errorMessage := none }) ∧
      (∀ m code, w.acceptInvite = .error { message := some m, code := code } →
        set = { status := classifyError m, lastAttempt := w.now2, errorMessage := some m }) := by
  rcases hattempt with ⟨g, hg, hw⟩ | ⟨m, code, he⟩
  · refine ⟨{ status := Status.joined, lastAttempt := w.now1, errorMessage := none }, ?_, ?_, ?_⟩
    · simp [attemptToJoinGroup, attemptToJoinGroupTry, hg, hw, Effect.isStoreCall]
    · intro _ _; rfl
    · intro m code he
      rw [hg] at he
      cases he
  · refine ⟨{ status := classifyError m, lastAttempt := w.now2, errorMessage := some m },
      ?_, ?_, ?_⟩
    · rw [(attemptToJoinGroup_rejected w coll doc m code he).1]
      simp [Effect.isStoreCall]
    · intro g hg
      rw [he] at hg
      cases hg
    · intro m2 code2 he2
      rw [he] at he2
      cases he2
      rfl

/-- C9, witness: the join is accepted and the write completes. -/
theorem one_status_update_per_attempt_witness :
    (attemptToJoinGroup joinAccepted [sampleInvite] sampleInvite).trace.filter
        Effect.isStoreCall
      = [.updateInvite sampleInvite._id
          { status := Status.joined, lastAttempt := joinAccepted.now1,
            errorMessage := none }] := by
  obtain ⟨set, htrace, hok, _⟩ :=
    one_status_update_per_attempt joinAccepted [sampleInvite] sampleInvite
      (Or.inl ⟨"120363@g.us", rfl, rfl⟩)
  rw [← hok "120363@g.us" rfl]
  exact htrace

/-! ## Failure containment -/

/-- For an event that has its `msg.id`, `processAndSaveMessage` (`wa3.js`) completes
without raising, whatever error objects the lookups and the write throw. -/
theorem processAndSaveMessage_contained (w : MsgWorld) (coll : List MessageData)
    (msg : RawMsg) (msgId : String) (hid : msg.id = some msgId) :
    (processAndSaveMessage w coll msg).result = .ok () := by
  simp only [processAndSaveMessage, hid]
  split
  · rfl
  · split_ifs <;> rfl

/-- A write rejected with the duplicate-key code `11000` puts nothing on the error
console (`wa3.js`). -/
theorem processAndSaveMessage_duplicate_silent (w : MsgWorld) (coll : List MessageData)
    (msg : RawMsg) (chat : Chat) (contact : Contact) (msgId chatId : String) (e : JsError)
    (hchat : w.getChat = .ok chat) (hcontact : w.getContact = .ok contact)
    (hid : msg.id = some msgId) (hcid : chat.id = some chatId)
    (hwrite : w.write = some e) (hcode : e.code = some 11000) :
    (processAndSaveMessage w coll msg).store = coll ∧
      Effect.consoleError ∉ (processAndSaveMessage w coll msg).trace ∧
      (processAndSaveMessage w coll msg).result = .ok () := by
  simp [processAndSaveMessage, processAndSaveMessageTry, hchat, hcontact, hid, hcid, hwrite,
    hcode]

/-- An event archived again through `processAndSaveMessage` of `wawebscrap.js`: the
upsert matches the stored record and raises nothing, so the run prints its "processed"
line and returns `true`; the duplicate-key branch of the `catch` clause is not taken. -/
theorem scrap_rearchive_returns_true :
    (Scrap.processAndSaveMessage scrapWorld [storedEarlier] sampleMsg (some sampleChat)
        (some sampleContact)).result = .ok true ∧
    (Scrap.processAndSaveMessage scrapWorld [storedEarlier] sampleMsg (some sampleChat)
        (some sampleContact)).store = [storedEarlier] ∧
    Effect.consoleLog ∈ (Scrap.processAndSaveMessage scrapWorld [storedEarlier] sampleMsg
        (some sampleChat) (some sampleContact)).trace := by
  refine ⟨rfl, by decide, by decide⟩

/-- C10, the failing input: an event without `msg.id`, with both lookups answering.  The
`TypeError` of `msg.id._serialized` is caught, and the `catch` clause reads
`msg.id._serialized` again for its log line: the `TypeError` raised there escapes
`processAndSaveMessage`, in `wa3.js` and in `wawebscrap.js`, and nothing is archived. -/
theorem malformed_event_error_escapes :
    (processAndSaveMessage (worldAt 7) [] malformedMsg).result = .error typeError ∧
    (processAndSaveMessage (worldAt 7) [] malformedMsg).store = [] ∧
    (Scrap.processAndSaveMessage scrapWorld [] malformedMsg none none).result
      = .error typeError ∧
    (Scrap.processAndSaveMessage scrapWorld [] malformedMsg none none).store = [] :=
  ⟨rfl, rfl, rfl, rfl⟩

/-! ## The sender name -/

theorem jsOr_eq_fallbackName (contact : Contact) (msg : RawMsg) :
    jsOr (jsOr contact.pushname contact.name) msg.sender = fallbackName contact msg := by
  unfold jsOr fallbackName
  by_cases h1 : truthy contact.pushname = true
  · simp [h1]
  · by_cases h2 : truthy contact.name = true
    · simp [h1, h2]
    · simp [h1, h2]

/-- The `try` block of `wa3.js` hands the store no record but `messageData`. -/
theorem processAndSaveMessageTry_upsert (w : MsgWorld) (coll : List MessageData)
    (msg : RawMsg) (contact : Contact) (hcontact : w.getContact = .ok contact)
    (d : MessageData)
    (hd : Effect.upsertMessage d ∈ (processAndSaveMessageTry w coll msg).trace) :
    ∃ chat msgId chatId, d = messageData msg chat contact msgId chatId w.now := by
  unfold processAndSaveMessageTry at hd
  simp only [hcontact] at hd
  repeat' split at hd
  all_goals simp at hd
  all_goals
    subst hd
    exact ⟨_, _, _, rfl⟩

/-- The `catch` clause of `wa3.js` adds at most a line on the error console. -/
theorem processAndSaveMessage_trace (w : MsgWorld) (coll : List MessageData) (msg : RawMsg) :
    (processAndSaveMessage w coll msg).trace = (processAndSaveMessageTry w coll msg).trace ∨
    (processAndSaveMessage w coll msg).trace
      = (processAndSaveMessageTry w coll msg).trace ++ [Effect.consoleError] := by
  unfold processAndSaveMessage
  simp only
  split
  · exact Or.inl rfl
  · split_ifs
    · split
      · exact Or.inl rfl
      · exact Or.inr rfl
    · exact Or.inl rfl

/-- Every record `processAndSaveMessage` (`wa3.js`) hands to the store carries the
fallback name of the contact the lookup returned. -/
theorem processAndSaveMessage_senderName (w : MsgWorld) (coll : List MessageData)
    (msg : RawMsg) (contact : Contact) (hcontact : w.getContact = .ok contact)
    (d : MessageData) (hd : Effect.upsertMessage d ∈ (processAndSaveMessage w coll msg).trace) :
    d.senderName = fallbackName contact msg := by
  have htry : Effect.upsertMessage d ∈ (processAndSaveMessageTry w coll msg).trace := by
    rcases processAndSaveMessage_trace w coll msg with h | h
    · rwa [h] at hd
    · rw [h] at hd
      simpa using hd
  obtain ⟨chat, msgId, chatId, rfl⟩ := processAndSaveMessageTry_upsert w coll msg contact
    hcontact d htry
  exact jsOr_eq_fallbackName contact msg

/-- Whether the upsert inserts does not depend on the record it carries. -/
theorem updateOneUpsert_count (coll : List MessageData) (chatId msgId : String)
    (doc doc2 : MessageData) :
    (updateOneUpsert coll chatId msgId doc).2 = (updateOneUpsert coll chatId msgId doc2).2 := by
  unfold updateOneUpsert
  split_ifs <;> rfl

/-- The completion of `processAndSaveMessage` (`wa3.js`) is the same whatever the two names
of the contact are. -/
theorem processAndSaveMessage_result_names (w : MsgWorld) (coll : List MessageData)
    (msg : RawMsg) (contact : Contact) (hcontact : w.getContact = .ok contact)
    (p n : Option String) :
    (processAndSaveMessage
        { w with getContact := .ok { contact with pushname := p, name := n } } coll msg).result
      = (processAndSaveMessage w coll msg).result := by
  rcases w with ⟨gc, gk, now, wr⟩
  simp only at hcontact
  subst hcontact
  rcases msg with ⟨id, sender, fromMe, ts, body, ty, hasMedia, hasQ, qid, rawData⟩
  rcases gc with e | ⟨cid, cname, grp⟩
  · rfl
  rcases id with _ | msgId
  · rfl
  rcases cid with _ | chatId
  · rfl
  rcases wr with _ | e
  swap
  · simp only [processAndSaveMessage, processAndSaveMessageTry]
    split_ifs <;> rfl
  have hc := updateOneUpsert_count coll chatId msgId
    (messageData ⟨some msgId, sender, fromMe, ts, body, ty, hasMedia, hasQ, qid, rawData⟩
      ⟨some chatId, cname, grp⟩ { contact with pushname := p, name := n } msgId chatId now)
    (messageData ⟨some msgId, sender, fromMe, ts, body, ty, hasMedia, hasQ, qid, rawData⟩
      ⟨some chatId, cname, grp⟩ contact msgId chatId now)
  simp only [messageData] at hc
  cases body <;>
    simp only [processAndSaveMessage, processAndSaveMessageTry, messageData, hc] <;>
    split_ifs <;> rfl

/-- The record built by `processAndSaveMessage` (`wawebscrap.js`) carries the fallback
name: an upsert in its trace is one of the trace so far, or carries that name. -/
theorem scrap_data_upsert (w : Scrap.ScrapWorld) (coll : List MessageData) (msg : RawMsg)
    (chat : Chat) (contact : Contact) (tr : List Effect) (d : MessageData)
    (hd : Effect.upsertMessage d ∈
      (Scrap.processAndSaveMessageData w coll msg chat contact tr).trace) :
    Effect.upsertMessage d ∈ tr ∨ d.senderName = fallbackName contact msg := by
  have hname := jsOr_eq_fallbackName contact msg
  rcases w with ⟨gc, gk, gcb, gkb, now, wr⟩
  rcases msg with ⟨id, sender, fromMe, ts, body, ty, hasMedia, hasQ, qid, rawData⟩
  rcases chat with ⟨cid, cname, grp⟩
  rcases id with _ | msgId
  · left
    simpa [Scrap.processAndSaveMessageData] using hd
  rcases cid with _ | chatId
  · left
    simpa [Scrap.processAndSaveMessageData] using hd
  cases hn : truthy cname <;> cases hk : truthy contact.number <;>
    rcases gcb with e1 | c1 <;> rcases gkb with e2 | c2 <;>
    rcases wr with _ | e3 <;> cases body <;>
    simp [Scrap.processAndSaveMessageData, Scrap.messageData, hn, hk] at hd <;>
    first
    | exact Or.inl hd
    | (rcases hd with h | h
       · exact Or.inl h
       · subst h
         exact Or.inr hname)

/-- Every record the `try` block of `wawebscrap.js` hands to the store carries the
fallback name of the contact in use: the one the caller passed, or the one looked up. -/
theorem scrap_try_upsert (w : Scrap.ScrapWorld) (coll : List MessageData) (msg : RawMsg)
    (c0 : Option Chat) (k0 : Option Contact) (contact : Contact)
    (hk : k0 = some contact ∨ (k0 = none ∧ w.getContact = .ok contact)) (d : MessageData)
    (hd : Effect.upsertMessage d ∈ (Scrap.processAndSaveMessageTry w coll msg c0 k0).trace) :
    d.senderName = fallbackName contact msg := by
  have key : ∀ chat tr, Effect.upsertMessage d ∉ tr →
      Effect.upsertMessage d ∈ (Scrap.processAndSaveMessageData w coll msg chat contact tr).trace →
      d.senderName = fallbackName contact msg := by
    intro chat tr hnot h
    rcases scrap_data_upsert w coll msg chat contact tr d h with h1 | h1
    · exact absurd h1 hnot
    · exact h1
  rcases hk with rfl | ⟨rfl, hg⟩
  · rcases c0 with _ | chat
    · rcases hc : w.getChat with e | chat
      · simp [Scrap.processAndSaveMessageTry, hc] at hd
      · simp only [Scrap.processAndSaveMessageTry, hc] at hd
        exact key chat _ (by simp) hd
    · simp only [Scrap.processAndSaveMessageTry] at hd
      exact key chat _ (by simp) hd
  · rcases c0 with _ | chat
    · rcases hc : w.getChat with e | chat
      · simp [Scrap.processAndSaveMessageTry, hc] at hd
      · simp only [Scrap.processAndSaveMessageTry, hc, hg] at hd
        exact key chat _ (by simp) hd
    · simp only [Scrap.processAndSaveMessageTry, hg] at hd
      exact key chat _ (by simp) hd

/-- The `catch` clause of `wawebscrap.js` adds at most a line on the console. -/
theorem scrap_trace (w : Scrap.ScrapWorld) (coll : List MessageData) (msg : RawMsg)
    (c0 : Option Chat) (k0 : Option Contact) :
    ∃ tail, (Scrap.processAndSaveMessage w coll msg c0 k0).trace
        = (Scrap.processAndSaveMessageTry w coll msg c0 k0).trace ++ tail ∧
      ∀ d, Effect.upsertMessage d ∉ tail := by
  unfold Scrap.processAndSaveMessage
  simp only
  split
  · exact ⟨[], by simp, by simp⟩
  · split_ifs
    · split
      · exact ⟨[], by simp, by simp⟩
      · exact ⟨[Effect.consoleLog], rfl, by simp⟩
    · split
      · exact ⟨[], by simp, by simp⟩
      · exact ⟨[Effect.consoleError], rfl, by simp⟩

/-- Every record `processAndSaveMessage` (`wawebscrap.js`) hands to the store carries the
fallback name of the contact in use. -/
theorem scrap_senderName (w : Scrap.ScrapWorld) (coll : List MessageData) (msg : RawMsg)
    (c0 : Option Chat) (k0 : Option Contact) (contact : Contact)
    (hk : k0 = some contact ∨ (k0 = none ∧ w.getContact = .ok contact)) (d : MessageData)
    (hd : Effect.upsertMessage d ∈ (Scrap.processAndSaveMessage w coll msg c0 k0).trace) :
    d.senderName = fallbackName contact msg := by
  obtain ⟨tail, ht, hnot⟩ := scrap_trace w coll msg c0 k0
  rw [ht, List.mem_append] at hd
  rcases hd with h | h
  · exact scrap_try_upsert w coll msg c0 k0 contact hk d h
  · exact absurd h (hnot d)

/-- The completion of the `try` block of `wawebscrap.js` is the same whatever the two
names of the contact are. -/
theorem scrap_data_result_names (w : Scrap.ScrapWorld) (coll : List MessageData)
    (msg : RawMsg) (chat : Chat) (contact : Contact) (tr : List Effect) (p n : Option String) :
    (Scrap.processAndSaveMessageData w coll msg chat
        { contact with pushname := p, name := n } tr).result
      = (Scrap.processAndSaveMessageData w coll msg chat contact tr).result := by
  rcases w with ⟨gc, gk, gcb, gkb, now, wr⟩
  rcases msg with ⟨id, sender, fromMe, ts, body, ty, hasMedia, hasQ, qid, rawData⟩
  rcases chat with ⟨cid, cname, grp⟩
  rcases id with _ | msgId
  · rfl
  rcases cid with _ | chatId
  · rfl
  cases hn : truthy cname <;> cases hk : truthy contact.number <;>
    rcases gcb with e1 | c1 <;> rcases gkb with e2 | c2 <;>
    rcases wr with _ | e3 <;> cases body <;>
    simp [Scrap.processAndSaveMessageData, Scrap.messageData, hn, hk]

/-- The completion of `processAndSaveMessage` (`wawebscrap.js`), called with a contact,
is the same whatever the two names of that contact are. -/
theorem scrap_result_names (w : Scrap.ScrapWorld) (coll : List MessageData) (msg : RawMsg)
    (c0 : Option Chat) (contact : Contact) (p n : Option String) :
    (Scrap.processAndSaveMessage w coll msg c0
        (some { contact with pushname := p, name := n })).result
      = (Scrap.processAndSaveMessage w coll msg c0 (some contact)).result := by
  have htry : (Scrap.processAndSaveMessageTry w coll msg c0
        (some { contact with pushname := p, name := n })).result
      = (Scrap.processAndSaveMessageTry w coll msg c0 (some contact)).result := by
    rcases c0 with _ | chat
    · rcases hc : w.getChat with e | chat
      · simp [Scrap.processAndSaveMessageTry, hc]
      · simp only [Scrap.processAndSaveMessageTry, hc]
        exact scrap_data_result_names w coll msg chat contact _ p n
    · simp only [Scrap.processAndSaveMessageTry]
      exact scrap_data_result_names w coll msg chat contact _ p n
  unfold Scrap.processAndSaveMessage
  simp only
  rw [htry]
  split
  · rfl
  · split_ifs <;> split <;> rfl

/-- With the lookups answering and the event and the chat carrying their identities,
`processAndSaveMessage` (`wa3.js`) builds `messageData` and hands it to the store, whether
the write completes or not. -/
theorem processAndSaveMessage_builds (w : MsgWorld) (coll : List MessageData) (msg : RawMsg)
    (chat : Chat) (contact : Contact) (msgId chatId : String)
    (hchat : w.getChat = .ok chat) (hcontact : w.getContact = .ok contact)
    (hid : msg.id = some msgId) (hcid : chat.id = some chatId) :
    Effect.upsertMessage (messageData msg chat contact msgId chatId w.now)
      ∈ (processAndSaveMessage w coll msg).trace := by
  have htry : Effect.upsertMessage (messageData msg chat contact msgId chatId w.now)
      ∈ (processAndSaveMessageTry w coll msg).trace := by
    rcases w with ⟨gc, gk, now, wr⟩
    simp only at hchat hcontact
    subst hchat hcontact
    rcases msg with ⟨id, sender, fromMe, ts, body, ty, hasMedia, hasQ, qid, rawData⟩
    simp only at hid
    subst hid
    rcases wr with _ | e <;> cases body <;>
      simp only [processAndSaveMessageTry, hcid, messageData] <;>
      split_ifs <;> simp
  rcases processAndSaveMessage_trace w coll msg with h | h
  · rw [h]; exact htry
  · rw [h]; exact List.mem_append_left _ htry

/-- With the repeated lookups answering and the event and the chat carrying their
identities, the `try` block of `wawebscrap.js` builds `messageData` and hands it to the
store; when the write completes the collection is the upsert's. -/
theorem scrap_data_builds (w : Scrap.ScrapWorld) (coll : List MessageData) (msg : RawMsg)
    (chat : Chat) (contact : Contact) (tr : List Effect) (msgId chatId : String)
    (cb : Chat) (kb : Option Contact)
    (hid : msg.id = some msgId) (hcid : chat.id = some chatId)
    (hcb : w.getChatById = .ok cb) (hkb : w.getContactById = .ok kb) :
    Effect.upsertMessage
        (Scrap.messageData msg chat contact msgId chatId
          (if truthy chat.name then chat.name else cb.name)
          (if truthy contact.number then contact.number else kb.bind Contact.number) w.now)
      ∈ (Scrap.processAndSaveMessageData w coll msg chat contact tr).trace ∧
    (w.write = none →
      (Scrap.processAndSaveMessageData w coll msg chat contact tr).store
        = (updateOneUpsert coll chatId msgId
            (Scrap.messageData msg chat contact msgId chatId
              (if truthy chat.name then chat.name else cb.name)
              (if truthy contact.number then contact.number else kb.bind Contact.number)
              w.now)).1) := by
  rcases w with ⟨gc, gk, gcb, gkb, now, wr⟩
  simp only at hcb hkb
  subst hcb hkb
  rcases msg with ⟨id, sender, fromMe, ts, body, ty, hasMedia, hasQ, qid, rawData⟩
  rcases chat with ⟨cid, cname, grp⟩
  simp only at hid hcid
  subst hid hcid
  cases hn : truthy cname <;> cases hk : truthy contact.number <;>
    rcases wr with _ | e3 <;> cases body <;>
    simp [Scrap.processAndSaveMessageData, Scrap.messageData, hn, hk]

/-- The `catch` clause of `wawebscrap.js` leaves the collection as the `try` block left
it. -/
theorem scrap_store (w : Scrap.ScrapWorld) (coll : List MessageData) (msg : RawMsg)
    (c0 : Option Chat) (k0 : Option Contact) :
    (Scrap.processAndSaveMessage w coll msg c0 k0).store
      = (Scrap.processAndSaveMessageTry w coll msg c0 k0).store := by
  unfold Scrap.processAndSaveMessage
  simp only
  split
  · rfl
  · split_ifs <;> split <;> rfl

/-- With the lookups answering, `processAndSaveMessage` (`wawebscrap.js`) hands the store a
record under the event's key that carries the fallback name of the contact in use; when
the write completes and the key is new, that record is archived. -/
theorem scrap_builds (w : Scrap.ScrapWorld) (coll : List MessageData) (msg : RawMsg)
    (c0 : Option Chat) (k0 : Option Contact) (chat : Chat) (contact : Contact)
    (msgId chatId : String) (cb : Chat) (kb : Option Contact)
    (hc : c0 = some chat ∨ (c0 = none ∧ w.getChat = .ok chat))
    (hk : k0 = some contact ∨ (k0 = none ∧ w.getContact = .ok contact))
    (hid : msg.id = some msgId) (hcid : chat.id = some chatId)
    (hcb : w.getChatById = .ok cb) (hkb : w.getContactById = .ok kb) :
    ∃ d, Effect.upsertMessage d ∈ (Scrap.processAndSaveMessage w coll msg c0 k0).trace ∧
      d.senderName = fallbackName contact msg ∧ d.msgId = msgId ∧ d.chatId = chatId ∧
      (w.write = none → coll.any (MessageData.hasKey chatId msgId) = false →
        (Scrap.processAndSaveMessage w coll msg c0 k0).store = coll ++ [d]) := by
  have htry : ∃ tr, Scrap.processAndSaveMessageTry w coll msg c0 k0
      = Scrap.processAndSaveMessageData w coll msg chat contact tr := by
    rcases hc with rfl | ⟨rfl, hg⟩ <;> rcases hk with rfl | ⟨rfl, hg2⟩
    · exact ⟨[], by simp only [Scrap.processAndSaveMessageTry]⟩
    · exact ⟨[] ++ [Effect.getContact], by simp only [Scrap.processAndSaveMessageTry, hg2]⟩
    · exact ⟨[Effect.getChat], by simp only [Scrap.processAndSaveMessageTry, hg]⟩
    · exact ⟨[Effect.getChat] ++ [Effect.getContact],
        by simp only [Scrap.processAndSaveMessageTry, hg, hg2]⟩
  obtain ⟨tr, htr⟩ := htry
  obtain ⟨hmem, hstore⟩ := scrap_data_builds w coll msg chat contact tr msgId chatId cb kb
    hid hcid hcb hkb
  obtain ⟨tail, htail, _⟩ := scrap_trace w coll msg c0 k0
  refine ⟨Scrap.messageData msg chat contact msgId chatId
      (if truthy chat.name then chat.name else cb.name)
      (if truthy contact.number then contact.number else kb.bind Contact.number) w.now,
    ?_, jsOr_eq_fallbackName contact msg, rfl, rfl, ?_⟩
  · rw [htail, htr]
    exact List.mem_append_left _ hmem
  · intro hw hfresh
    rw [scrap_store, htr, hstore hw, updateOneUpsert_absent _ _ _ _ hfresh]

/-- C11. The `senderName` of every record `processAndSaveMessage` builds is the contact's
display name (`pushname`) when present, otherwise the contact-record name when present,
otherwise the raw sender identifier `msg.from`, in that order, in `wa3.js` and in
`wawebscrap.js`; a name counts as present when it is defined and not empty.  With the
lookups answering and the event and its chat carrying their identities, the record is
built and handed to the store whatever the two names are, and archived when the write
completes under a new key.  Whether the run completes or fails does not depend on the
two names, so a missing name never makes it fail. -/
theorem senderName_fallback_order (w : MsgWorld) (sw : Scrap.ScrapWorld)
    (coll : List MessageData) (msg : RawMsg) (contact : Contact) (c0 : Option Chat)
    (p n : Option String) (hcontact : w.getContact = .ok contact) :
    (truthy contact.pushname = true → fallbackName contact msg = contact.pushname) ∧
    (truthy contact.pushname = false → truthy contact.name = true →
      fallbackName contact msg = contact.name) ∧
    (truthy contact.pushname = false → truthy contact.name = false →
      fallbackName contact msg = msg.sender) ∧
    (∀ chat msgId chatId now,
      (messageData msg chat contact msgId chatId now).senderName = fallbackName contact msg) ∧
    (∀ d, Effect.upsertMessage d ∈ (processAndSaveMessage w coll msg).trace →
      d.senderName = fallbackName contact msg) ∧
    (∀ d, Effect.upsertMessage d ∈
        (Scrap.processAndSaveMessage sw coll msg c0 (some contact)).trace →
      d.senderName = fallbackName contact msg) ∧
    (sw.getContact = .ok contact →
      ∀ d, Effect.upsertMessage d ∈ (Scrap.processAndSaveMessage sw coll msg c0 none).trace →
        d.senderName = fallbackName contact msg) ∧
    (processAndSaveMessage
        { w with getContact := .ok { contact with pushname := p, name := n } } coll msg).result
      = (processAndSaveMessage w coll msg).result ∧
    (Scrap.processAndSaveMessage sw coll msg c0
        (some { contact with pushname := p, name := n })).result
      = (Scrap.processAndSaveMessage sw coll msg c0 (some contact)).result ∧
    (∀ chat msgId chatId, w.getChat = .ok chat → msg.id = some msgId →
      chat.id = some chatId →
      Effect.upsertMessage (messageData msg chat contact msgId chatId w.now)
          ∈ (processAndSaveMessage w coll msg).trace ∧
        (w.write = none → coll.any (MessageData.hasKey chatId msgId) = false →
          (processAndSaveMessage w coll msg).store
            = coll ++ [messageData msg chat contact msgId chatId w.now])) ∧
    (∀ chat msgId chatId cb kb, msg.id = some msgId → chat.id = some chatId →
      sw.getChatById = .ok cb → sw.getContactById = .ok kb →
      ∃ d, Effect.upsertMessage d
            ∈ (Scrap.processAndSaveMessage sw coll msg (some chat) (some contact)).trace ∧
        d.senderName = fallbackName contact msg ∧ d.msgId = msgId ∧ d.chatId = chatId ∧
        (sw.write = none → coll.any (MessageData.hasKey chatId msgId) = false →
          (Scrap.processAndSaveMessage sw coll msg (some chat) (some contact)).store
            = coll ++ [d])) ∧
    (∀ chat msgId chatId cb kb, sw.getChat = .ok chat → sw.getContact = .ok contact →
      msg.id = some msgId → chat.id = some chatId →
      sw.getChatById = .ok cb → sw.getContactById = .ok kb →
      ∃ d, Effect.upsertMessage d
            ∈ (Scrap.processAndSaveMessage sw coll msg none none).trace ∧
        d.senderName = fallbackName contact msg ∧ d.msgId = msgId ∧ d.chatId = chatId ∧
        (sw.write = none → coll.any (MessageData.hasKey chatId msgId) = false →
          (Scrap.processAndSaveMessage sw coll msg none none).store = coll ++ [d])) := by
  refine ⟨?_, ?_, ?_, ?_, ?_, ?_, ?_, ?_, ?_, ?_, ?_, ?_⟩
  · intro h1
    simp [fallbackName, h1]
  · intro h1 h2
    simp [fallbackName, h1, h2]
  · intro h1 h2
    simp [fallbackName, h1, h2]
  · intro chat msgId chatId now
    exact jsOr_eq_fallbackName contact msg
  · intro d hd
    exact processAndSaveMessage_senderName w coll msg contact hcontact d hd
  · intro d hd
    exact scrap_senderName sw coll msg c0 (some contact) contact (Or.inl rfl) d hd
  · intro hg d hd
    exact scrap_senderName sw coll msg c0 none contact (Or.inr ⟨rfl, hg⟩) d hd
  · exact processAndSaveMessage_result_names w coll msg contact hcontact p n
  · exact scrap_result_names sw coll msg c0 contact p n
  · intro chat msgId chatId hchat hid hcid
    refine ⟨processAndSaveMessage_builds w coll msg chat contact msgId chatId hchat hcontact
      hid hcid, ?_⟩
    intro hw hfresh
    rw [(processAndSaveMessage_written w coll msg chat contact msgId chatId hchat hcontact
      hid hcid hw).1, updateOneUpsert_absent _ _ _ _ hfresh]
  · intro chat msgId chatId cb kb hid hcid hcb hkb
    exact scrap_builds sw coll msg (some chat) (some contact) chat contact msgId chatId cb kb
      (Or.inl rfl) (Or.inl rfl) hid hcid hcb hkb
  · intro chat msgId chatId cb kb hg hg2 hid hcid hcb hkb
    exact scrap_builds sw coll msg none none chat contact msgId chatId cb kb
      (Or.inr ⟨rfl, hg⟩) (Or.inr ⟨rfl, hg2⟩) hid hcid hcb hkb

/-- C11, witness: the contact of `sampleMsg` has neither name.  In `wa3.js` and in
`wawebscrap.js` the record handed to the store, and archived, carries the raw sender
identifier, and the run completes; for the contact with a display name it carries that
name. -/
theorem senderName_fallback_order_witness :
    namelessWorld.getContact = .ok namelessContact ∧
    Effect.upsertMessage (messageData sampleMsg sampleChat namelessContact "m1" "c1" 7)
      ∈ (processAndSaveMessage namelessWorld [] sampleMsg).trace ∧
    (messageData sampleMsg sampleChat namelessContact "m1" "c1" 7).senderName
      = some "628@c.us" ∧
    (processAndSaveMessage namelessWorld [] sampleMsg).store
      = [messageData sampleMsg sampleChat namelessContact "m1" "c1" 7] ∧
    (processAndSaveMessage namelessWorld [] sampleMsg).result = .ok () ∧
    (∃ d, Effect.upsertMessage d
          ∈ (Scrap.processAndSaveMessage scrapWorld [] sampleMsg (some sampleChat)
              (some namelessContact)).trace ∧
      d.senderName = some "628@c.us" ∧
      (Scrap.processAndSaveMessage scrapWorld [] sampleMsg (some sampleChat)
          (some namelessContact)).store = [d]) ∧
    (Scrap.processAndSaveMessage scrapWorld [] sampleMsg (some sampleChat)
        (some namelessContact)).result = .ok true ∧
    fallbackName sampleContact sampleMsg = some "Budi" := by
  have h := senderName_fallback_order namelessWorld scrapWorld [] sampleMsg namelessContact
    none none none rfl
  have hbuilt := h.2.2.2.2.2.2.2.2.2.1 sampleChat "m1" "c1" rfl rfl rfl
  obtain ⟨d, hd, hname, _, _, hstore⟩ :=
    h.2.2.2.2.2.2.2.2.2.2.1 sampleChat "m1" "c1" sampleChat (some sampleContact) rfl rfl rfl rfl
  have h2 := senderName_fallback_order (worldAt 7) scrapWorld [] sampleMsg sampleContact
    none none none rfl
  exact ⟨rfl, hbuilt.1, h.2.2.2.2.1 _ hbuilt.1, hbuilt.2 rfl rfl, rfl,
    ⟨d, hd, hname, hstore rfl rfl⟩, rfl, h2.1 (by decide)⟩

end WAScraper
